import Mathlib

/-!
# Verification of the `meas_base` measurement core

A shallow embedding of the numerical core of the LSST `meas_base` source
measurement library (files `SdssShape.cc`, `ApertureFlux.cc`,
`InputUtilities.cc`), over exact rational arithmetic.

Modelling conventions:
* machine floating-point numbers are modelled by `ℚ`; a value that can be NaN
  is modelled by `Option ℚ` with `none` playing the role of NaN;
* the float-epsilon constant `std::numeric_limits<float>::epsilon()` is
  `2⁻²³ = 1/8388608`, the double one is `2⁻⁵²`;
* the fast exponential `approxExp` (from the external `lsst::utils::PowFast`
  table, swappable per the design) is a parameter `aexp : ℚ → ℚ` of every
  function that uses it;
* `I0 = sum / (π·√detW)` is stored as the rational pair `(sum, detW)` since π
  is irrational; no property below depends on the numeric value of `I0`.
-/

namespace MeasBase

set_option maxRecDepth 40000

/-- `std::numeric_limits<float>::epsilon() = 2⁻²³`. -/
def epsF : ℚ := 1 / 8388608

/-- `std::numeric_limits<double>::epsilon() = 2⁻⁵²`. -/
def epsD : ℚ := 1 / 4503599627370496

/-!
## `getWeights` (SdssShape.cc lines 168-215)

Calculate weights from moments.  The source returns
`boost::tuple<std::pair<bool, double>, double, double, double>`; we model the
`ok = true` case as `some (det, w11, w12, w22)` and every `ok = false` case as
`none` (all the numeric components of a failure return are NaN, except the
dead `!careful` branch which would return the input determinant).

The NaN tests on the inputs (lines 173-175) cannot fire over `ℚ` and are
omitted; callers that can pass NaN perform the test at the `Option ℚ` level.
-/

/-- `getWeights(sigma11, sigma12, sigma22, careful)` from SdssShape.cc.
The second `det < epsilon` test (source line 182) is kept verbatim: it is dead
code, because the first test (line 177) already returned failure.  In the dead
branch the axes round-trip `Quadrupole → Axes → inflate by 1/12 → Quadrupole`
adds `1/12` to each diagonal entry of the moments matrix (both principal axes
gain `iMin = 1/12` in quadrature), and the branch returns the inverse of that
inflated matrix. -/
def getWeights (sigma11 sigma12 sigma22 : ℚ) (careful : Bool) :
    Option (ℚ × ℚ × ℚ × ℚ) :=
  let det := sigma11 * sigma22 - sigma12 * sigma12
  if det < epsF then
    none
  else if det < epsF then
    -- dead code: unreachable careful/!careful handling of a singular matrix
    if !careful then
      none
    else
      let s11 := sigma11 + 1 / 12
      let s22 := sigma22 + 1 / 12
      let det2 := s11 * s22 - sigma12 * sigma12
      some (det2, s22 / det2, -sigma12 / det2, s11 / det2)
  else
    some (det, sigma22 / det, -sigma12 / det, sigma11 / det)

/-- `shouldInterp(sigma11, sigma22, det)` from SdssShape.cc lines 218-221. -/
def shouldInterp (sigma11 sigma22 det : ℚ) : Bool :=
  sigma11 < 1 / 4 || sigma22 < 1 / 4 || det < 1 / 16

/-!
## Aperture photometry (ApertureFlux.cc)

The geometric collaborators (`lsst::afw::geom::Box2I`, ellipse bounding boxes,
the `PixelRegion` rasterizer, the sinc-coefficient image produced by
`SincCoeffs::get` plus `offsetImage`) are external to the four source files.
`Box2I` is modelled from its documented behaviour (an integer box given by its
minimum and maximum corners, empty when a maximum is below the corresponding
minimum; containment of an empty box always holds; `clip` intersects).  The
per-ellipse outputs of the external geometry are carried as data on the
`Ellipse` record itself, so all claims quantify over them.
-/

/-- Modelled from the spec: `lsst::afw::geom::Box2I`, an integer bounding box
with inclusive minimum corner `(x0, y0)` and maximum corner `(x1, y1)`. -/
structure Box2I where
  x0 : ℤ
  y0 : ℤ
  x1 : ℤ
  y1 : ℤ
deriving DecidableEq

/-- A box is empty when either maximum corner lies below the minimum. -/
def Box2I.isEmpty (b : Box2I) : Bool :=
  b.x1 < b.x0 || b.y1 < b.y0

/-- Point containment for `Box2I`. -/
def Box2I.containsPt (b : Box2I) (x y : ℤ) : Bool :=
  b.x0 ≤ x && x ≤ b.x1 && b.y0 ≤ y && y ≤ b.y1

/-- `Box2I::contains(Box2I)`: an empty box is contained in every box;
otherwise both corners must be inside. -/
def Box2I.containsBox (b o : Box2I) : Bool :=
  o.isEmpty || (b.containsPt o.x0 o.y0 && b.containsPt o.x1 o.y1)

/-- `Box2I::clip`: intersection of two boxes (degenerate corners encode the
empty intersection). -/
def Box2I.clip (b o : Box2I) : Box2I :=
  ⟨max b.x0 o.x0, max b.y0 o.y0, min b.x1 o.x1, min b.y1 o.y1⟩

/-- Modelled from the spec: one horizontal pixel run `{y, xBegin, width}`
yielded by the `PixelRegion` rasterizer. -/
structure Span where
  y : ℤ
  xBegin : ℤ
  width : ℕ
deriving DecidableEq

/-- Modelled from the spec: the data the aperture code reads off an
`afw::geom::ellipses::Ellipse` and its external helpers —
`b` is the semi-minor axis `Axes(core).getB()`;
`bboxI` is `geom::Box2I(ellipse.computeBBox())`;
`spans` and `regionBBox` come from `PixelRegion(ellipse)`;
`coeffBox`/`coeff` describe the sinc-coefficient image for the core after the
sub-pixel shift to the ellipse center (`SincCoeffs::get` + `offsetImage`). -/
structure Ellipse where
  b : ℚ
  bboxI : Box2I
  spans : List Span
  regionBBox : Box2I
  coeffBox : Box2I
  coeff : ℤ → ℤ → ℚ

/-- A measurement image in parent (sky-pixel) coordinates: bounding box plus
total pixel and variance lookups (`var` is only meaningful for the
MaskedImage entry points). -/
structure AImg where
  bbox : Box2I
  pix : ℤ → ℤ → ℚ
  var : ℤ → ℤ → ℚ

/-- `ApertureFluxAlgorithm::Result`: instFlux and fluxErr start at their NaN
defaults (`none`); the squared error is stored because the source's
`instFluxErr` is its square root.  Flags are
`{FAILURE, APERTURE_TRUNCATED, SINC_COEFFS_TRUNCATED}`. -/
structure AResult where
  instFlux : Option ℚ := none
  instFluxErrSq : Option ℚ := none
  failure : Bool := false
  apertureTruncated : Bool := false
  sincCoeffsTruncated : Bool := false
deriving DecidableEq

/-- Sum of `f x y` over the integer points of a box (the elementwise product
sums of `computeSincFlux` over the coefficient-image box). -/
def boxSum (bx : Box2I) (f : ℤ → ℤ → ℚ) : ℚ :=
  ((List.range (bx.y1 + 1 - bx.y0).toNat).map fun i =>
    ((List.range (bx.x1 + 1 - bx.x0).toNat).map fun j =>
      f (bx.x0 + j) (bx.y0 + i)).sum).sum

/-- Sum of `f` over one span: `x` runs over `[xBegin, xBegin + width)`. -/
def spanSum (s : Span) (f : ℤ → ℤ → ℚ) : ℚ :=
  ((List.range s.width).map fun j => f (s.xBegin + j) s.y).sum

/-- Sum of `f` over all spans of a pixel region. -/
def spansSum (spans : List Span) (f : ℤ → ℤ → ℚ) : ℚ :=
  (spans.map fun s => spanSum s f).sum

/-- `getSincCoeffs` (ApertureFlux.cc lines 112-139): fetch the shifted
coefficient image, clip it to the measurement bounding box when it does not
fit, and set the truncation flags.  Returns the (possibly clipped)
coefficient-image box together with the updated result. -/
def getSincCoeffs (bbox : Box2I) (ell : Ellipse) (r : AResult) :
    Box2I × AResult :=
  if !(bbox.containsBox ell.coeffBox) then
    let r1 := { r with sincCoeffsTruncated := true }
    let overlap := ell.coeffBox.clip bbox
    if !(overlap.containsBox ell.bboxI) then
      (overlap, { r1 with apertureTruncated := true, failure := true })
    else
      (overlap, r1)
  else
    (ell.coeffBox, r)

/-- `ApertureFluxAlgorithm::computeSincFlux` for a plain `Image`
(ApertureFlux.cc lines 143-153). -/
def computeSincFlux (img : AImg) (ell : Ellipse) : AResult :=
  let cr := getSincCoeffs img.bbox ell {}
  if cr.2.apertureTruncated then cr.2
  else
    { cr.2 with
      instFlux := some (boxSum cr.1 fun x y => img.pix x y * ell.coeff x y) }

/-- `ApertureFluxAlgorithm::computeSincFlux` for a `MaskedImage`
(ApertureFlux.cc lines 155-171); additionally propagates the variance through
the squared coefficients. -/
def computeSincFluxMasked (img : AImg) (ell : Ellipse) : AResult :=
  let cr := getSincCoeffs img.bbox ell {}
  if cr.2.apertureTruncated then cr.2
  else
    { cr.2 with
      instFlux := some (boxSum cr.1 fun x y => img.pix x y * ell.coeff x y)
      instFluxErrSq :=
        some (boxSum cr.1 fun x y => img.var x y * ell.coeff x y ^ 2) }

/-- `ApertureFluxAlgorithm::computeNaiveFlux` for a plain `Image`
(ApertureFlux.cc lines 173-191). -/
def computeNaiveFlux (img : AImg) (ell : Ellipse) : AResult :=
  if !(img.bbox.containsBox ell.regionBBox) then
    { apertureTruncated := true, failure := true }
  else
    { instFlux := some (spansSum ell.spans img.pix) }

/-- `ApertureFluxAlgorithm::computeNaiveFlux` for a `MaskedImage`
(ApertureFlux.cc lines 193-218); accumulates the variance over the same
pixels and stores its square root as `instFluxErr`. -/
def computeNaiveFluxMasked (img : AImg) (ell : Ellipse) : AResult :=
  if !(img.bbox.containsBox ell.regionBBox) then
    { apertureTruncated := true, failure := true }
  else
    { instFlux := some (spansSum ell.spans img.pix)
      instFluxErrSq := some (spansSum ell.spans img.var) }

/-- `ApertureFluxAlgorithm::computeFlux` for a plain `Image`
(ApertureFlux.cc lines 220-227): sinc variant iff the semi-minor axis is at
most `maxSincRadius`. -/
def computeFlux (img : AImg) (ell : Ellipse) (maxSincRadius : ℚ) : AResult :=
  if ell.b ≤ maxSincRadius then computeSincFlux img ell
  else computeNaiveFlux img ell

/-- `ApertureFluxAlgorithm::computeFlux` for a `MaskedImage`
(ApertureFlux.cc lines 229-236). -/
def computeFluxMasked (img : AImg) (ell : Ellipse) (maxSincRadius : ℚ) :
    AResult :=
  if ell.b ≤ maxSincRadius then computeSincFluxMasked img ell
  else computeNaiveFluxMasked img ell

/-!
## `SafeShapeExtractor` (InputUtilities.cc lines 149-189)

The record/schema system is external; a record is modelled by exactly the data
the extractor reads: validity of the shape slot key, the three quadrupole
components (`none` = NaN), validity of the shape slot flag key, and the value
of that flag.  The four possible outcomes of `operator()` are modelled by
`ShapeExtractOut`; `flags.setValue(record, failureFlagNumber, true)` on the
valid-but-flagged path is reported as the `generalFlagSet` boolean of `ok`.
-/

/-- The inputs `SafeShapeExtractor::operator()` reads from a source record. -/
structure ShapeRecord where
  shapeKeyValid : Bool
  ixx : Option ℚ
  iyy : Option ℚ
  ixy : Option ℚ
  shapeFlagKeyValid : Bool
  shapeFlag : Bool
deriving DecidableEq

/-- Outcome of `SafeShapeExtractor::operator()`: a `FatalAlgorithmError`, a
`pex::exceptions::RuntimeError`, a `MeasurementError` carrying a flag number,
or a returned quadrupole together with whether the general failure flag was
set on the record. -/
inductive ShapeExtractOut where
  | fatal : ShapeExtractOut
  | runtimeErr : ShapeExtractOut
  | measurementErr : ℕ → ShapeExtractOut
  | ok : ℚ × ℚ × ℚ → Bool → ShapeExtractOut
deriving DecidableEq

/-- The invalidity test of InputUtilities.cc lines 157-158: some component is
NaN, or `Ixx·Iyy < (1 + 10⁻⁶)·Ixy²` (strict `<` in the source). -/
def shapeInvalid (ixx iyy ixy : Option ℚ) : Bool :=
  match ixx, iyy, ixy with
  | some a, some b, some c => a * b < (1 + 1 / 1000000) * (c * c)
  | _, _, _ => true

/-- `SafeShapeExtractor::operator()` (InputUtilities.cc lines 149-189).
`failureFlagNumber` stands for `flags.getFailureFlagNumber()`. -/
def safeShapeExtract (rec : ShapeRecord) (failureFlagNumber : ℕ) :
    ShapeExtractOut :=
  if !rec.shapeKeyValid then
    .fatal
  else if shapeInvalid rec.ixx rec.iyy rec.ixy then
    if !rec.shapeFlagKeyValid then
      .runtimeErr
    else if !rec.shapeFlag then
      .runtimeErr
    else
      .measurementErr failureFlagNumber
  else
    -- the components are all non-NaN here
    let q := ((rec.ixx).getD 0, (rec.iyy).getD 0, (rec.ixy).getD 0)
    if rec.shapeFlagKeyValid && rec.shapeFlag then
      .ok q true
    else
      .ok q false

/-!
## Adaptive moments (SdssShape.cc)

### Exact integer casts of `q ± sqrt r`

`set_amom_bbox` computes `rad = 4*sqrt(max(sigma11_w, sigma22_w))` and casts
`xcen ± rad ± 0.5` to `int` (C truncation toward zero).  Over exact rational
data these casts are computed without constructing the irrational square
root: `⌊q + √r⌋` is `⌊q⌋` plus the number of positive integers `k` with
`(k + ⌊q⌋ - q)² ≤ r`, and similarly for the other sign combinations.
-/

/-- `⌊q + √r⌋` for `0 ≤ r`, computed over `ℚ`. -/
def floorAddSqrt (q r : ℚ) : ℤ :=
  ⌊q⌋ + (((Finset.range (Nat.sqrt r.ceil.toNat + 2)).filter fun k =>
    (((k : ℕ) : ℚ) + 1 + (⌊q⌋ : ℚ) - q) ^ 2 ≤ r).card : ℤ)

/-- `⌊q - √r⌋` for `0 ≤ r`, computed over `ℚ`. -/
def floorSubSqrt (q r : ℚ) : ℤ :=
  ⌊q⌋ - (((Finset.range (Nat.sqrt r.ceil.toNat + 2)).filter fun k =>
    (((k : ℕ) : ℚ) + (q - (⌊q⌋ : ℚ))) ^ 2 < r).card : ℤ)

/-- C truncation toward zero of a rational value (`static_cast<int>`). -/
def ratTrunc (v : ℚ) : ℤ :=
  if 0 ≤ v then ⌊v⌋ else -⌊-v⌋

/-- C truncation toward zero of `q + √r` (`0 ≤ r`). -/
def truncAddSqrt (q r : ℚ) : ℤ :=
  if 0 ≤ q ∨ q ^ 2 ≤ r then floorAddSqrt q r else -(floorSubSqrt (-q) r)

/-- C truncation toward zero of `q - √r` (`0 ≤ r`). -/
def truncSubSqrt (q r : ℚ) : ℤ :=
  if 0 ≤ q ∧ r ≤ q ^ 2 then floorSubSqrt q r else -(floorAddSqrt (-q) r)

/-- `set_amom_bbox(width, height, xcen, ycen, sigma11_w, _, sigma22_w, 1000)`
(SdssShape.cc lines 229-260): the search box centered on `(xcen, ycen)` with
half-width `rad = min(4·√max(sigma11_w, sigma22_w), 1000)`, truncated to int
and clipped to `[0, width-1] × [0, height-1]`.  All call sites in the file
pass positive moments, so `max sigma11_w sigma22_w > 0`; for a nonpositive
maximum the source would produce NaN (undefined casts) and the model returns
the `rad = 0` box. -/
def set_amom_bbox (width height : ℤ) (xcen ycen : ℚ)
    (sigma11_w sigma22_w : ℚ) : Box2I :=
  let m := max sigma11_w sigma22_w
  let r := 16 * m
  -- rad > maxRad ↔ 4·√m > 1000 ↔ m > 62500
  let ix0 := if 62500 < m then ratTrunc (xcen - 1000 - 1/2)
             else truncSubSqrt (xcen - 1/2) r
  let iy0 := if 62500 < m then ratTrunc (ycen - 1000 - 1/2)
             else truncSubSqrt (ycen - 1/2) r
  let ix1 := if 62500 < m then ratTrunc (xcen + 1000 + 1/2)
             else truncAddSqrt (xcen + 1/2) r
  let iy1 := if 62500 < m then ratTrunc (ycen + 1000 + 1/2)
             else truncAddSqrt (ycen + 1/2) r
  { x0 := if ix0 < 0 then 0 else ix0
    y0 := if iy0 < 0 then 0 else iy0
    x1 := if width ≤ ix1 then width - 1 else ix1
    y1 := if height ≤ iy1 then height - 1 else iy1 }

/-!
### `calcmom` (SdssShape.cc lines 266-437)

The image seen by the moments code: `w × h` pixels addressed in image-local
coordinates (`pix column row`), plus the variance lookup of the MaskedImage
`ImageAdaptor` (`none` for a plain `Image`, whose `getVariance` returns NaN).
`x0`/`y0` are the parent-coordinate origin used only at the `apply` boundary.
-/

/-- Image model for the adaptive-moments code. -/
structure SImg where
  w : ℤ
  h : ℤ
  x0 : ℤ := 0
  y0 : ℤ := 0
  pix : ℤ → ℤ → ℚ
  var : Option (ℤ → ℤ → ℚ) := none

/-- The seven accumulators of `calcmom`. -/
structure Sums where
  s : ℚ := 0
  sx : ℚ := 0
  sy : ℚ := 0
  sxx : ℚ := 0
  sxy : ℚ := 0
  syy : ℚ := 0
  s4 : ℚ := 0
deriving DecidableEq

/-- Integer range `[a, b]` as a list (the `for (i = a; i <= b; ++i)` loops). -/
def rangeZ (a b : ℤ) : List ℤ :=
  (List.range (b + 1 - a).toNat).map fun n => a + n

/-- The four sub-pixel offsets `yl, yl+0.25, yl+0.5, yl+0.75 = yh` of the
interpolating loops `for (Y = yl; Y <= yh; Y += 0.25)`. -/
def interpOffsets : List ℚ := [0, 1/4, 1/2, 3/4]

/-- One sub-pixel contribution of the interpolating branch (SdssShape.cc
lines 332-366) at relative coordinates `(X, Y)` with pre-subtracted
intensity `tmod`. -/
def calcmomSub (fluxOnly : Bool) (aexp : ℚ → ℚ) (xcen ycen : ℚ)
    (w11 w12 w22 : ℚ) (tmod : ℚ) (st : Sums) (pos : ℚ × ℚ) : Sums :=
  let expon := pos.1 ^ 2 * w11 + 2 * (pos.1 * pos.2) * w12 + pos.2 ^ 2 * w22
  let weight := aexp (-(1/2) * expon)
  let ymod := tmod * weight
  if fluxOnly then { st with s := st.s + ymod }
  else
    { s := st.s + ymod
      sx := st.sx + ymod * (pos.1 + xcen)
      sy := st.sy + ymod * (pos.2 + ycen)
      sxx := st.sxx + pos.1 ^ 2 * ymod
      sxy := st.sxy + pos.1 * pos.2 * ymod
      syy := st.syy + pos.2 ^ 2 * ymod
      s4 := st.s4 + expon ^ 2 * ymod }

/-- One pixel's contribution to the `calcmom` accumulators (SdssShape.cc
lines 316-404), at column `j`, row `i`. -/
def calcmomPixel (fluxOnly : Bool) (img : SImg) (aexp : ℚ → ℚ)
    (xcen ycen bkgd : ℚ) (interpflag : Bool) (w11 w12 w22 : ℚ)
    (i j : ℤ) (st : Sums) : Sums :=
  let x : ℚ := (j : ℚ) - xcen
  let y : ℚ := (i : ℚ) - ycen
  if interpflag then
    let xl := x - 3/8
    let xh := x + 3/8
    let yl := y - 3/8
    let yh := y + 3/8
    let eC (a b : ℚ) : ℚ := a * a * w11 + b * b * w22 + 2 * a * b * w12
    let expon := max (max (eC xl yl) (eC xh yh)) (max (eC xl yh) (eC xh yl))
    if expon ≤ 9 then
      let tmod := img.pix j i - bkgd
      ((interpOffsets.map fun oy =>
        interpOffsets.map fun ox => (xl + ox, yl + oy)).flatten).foldl
        (calcmomSub fluxOnly aexp xcen ycen w11 w12 w22 tmod) st
    else st
  else
    let x2 := x * x
    let xy := x * y
    let y2 := y * y
    let expon := x2 * w11 + 2 * xy * w12 + y2 * w22
    if expon ≤ 14 then
      let weight := aexp (-(1/2) * expon)
      let tmod := img.pix j i - bkgd
      let ymod := tmod * weight
      if fluxOnly then { st with s := st.s + ymod }
      else
        { s := st.s + ymod
          sx := st.sx + ymod * (j : ℚ)
          sy := st.sy + ymod * (i : ℚ)
          sxx := st.sxx + x2 * ymod
          sxy := st.sxy + xy * ymod
          syy := st.syy + y2 * ymod
          s4 := st.s4 + expon ^ 2 * ymod }
    else st

/-- The accumulator pass of `calcmom` over the bounding box. -/
def calcmomSums (fluxOnly : Bool) (img : SImg) (aexp : ℚ → ℚ)
    (xcen ycen bkgd : ℚ) (bbox : Box2I) (interpflag : Bool)
    (w11 w12 w22 : ℚ) : Sums :=
  (rangeZ bbox.y0 bbox.y1).foldl
    (fun st i =>
      (rangeZ bbox.x0 bbox.x1).foldl
        (fun st' j =>
          calcmomPixel fluxOnly img aexp xcen ycen bkgd interpflag
            w11 w12 w22 i j st') st)
    {}

/-- The outputs `calcmom` writes when it reaches its epilogue: the final
status (`0` ↔ `ok = true`), the amplitude `I0 = sum/(π·√detW)` stored as the
pair `(sum, detW)` (or `none` when `getWeights(w11,w12,w22)` failed and the
source value is NaN), and the seven accumulators. -/
structure CMData where
  ok : Bool
  I0 : Option (ℚ × ℚ)
  sums : Sums
deriving DecidableEq

/-- `calcmom<fluxOnly>(image, xcen, ycen, bbox, bkgd, interpflag, w11, w12,
w22, ...)` (SdssShape.cc lines 266-437).  `none` models the two early
`return -1` paths (lines 295-297 and 306-308) that exit without writing any
output; `some d` with `d.ok = false` models the final `return -1` (line 436)
after the outputs were written. -/
def calcmom (fluxOnly : Bool) (img : SImg) (xcen ycen : ℚ) (bbox : Box2I)
    (bkgd : ℚ) (interpflag : Bool) (w11 w12 w22 : ℚ) (aexp : ℚ → ℚ) :
    Option CMData :=
  if 1000000 < |w11| ∨ 1000000 < |w12| ∨ 1000000 < |w22| then none
  else if bbox.x0 < 0 ∨ img.w ≤ bbox.x1 ∨ bbox.y0 < 0 ∨ img.h ≤ bbox.y1 then
    none
  else
    let st := calcmomSums fluxOnly img aexp xcen ycen bkgd bbox interpflag
      w11 w12 w22
    let i0 := match getWeights w11 w12 w22 true with
      | some (_, gw11, gw12, gw22) => some (st.s, gw11 * gw22 - gw12 ^ 2)
      | none => none
    some { ok := fluxOnly || (decide (0 < st.s) && decide (0 < st.sxx) &&
             decide (0 < st.syy))
           I0 := i0
           sums := st }

/-!
### The adaptive-moments iteration (SdssShape.cc lines 447-680)
-/

/-- The four `SdssShapeImpl` status flags, in their enum order
`UNWEIGHTED_BAD = 0, UNWEIGHTED = 1, SHIFT = 2, MAXITER = 3`. -/
structure Flags where
  unweightedBad : Bool := false
  unweighted : Bool := false
  shift : Bool := false
  maxIterHit : Bool := false
deriving DecidableEq

/-- The mutable numeric state of `getAdaptiveMoments`' iteration loop.
`x`/`y` are the centroid fields of the output `SdssShapeImpl` (written each
iteration, NaN before the first write); `sums` and `i0` hold the last values
written by `calcmom` (the C locals are uninitialized before the first write,
which is modelled as zero — with `maxIter ≥ 1` they are written before being
read). -/
structure AmState where
  s11 : ℚ
  s12 : ℚ
  s22 : ℚ
  w11 : ℚ
  w12 : ℚ
  w22 : ℚ
  e1old : ℚ
  e2old : ℚ
  s11owOld : ℚ
  interpflag : Bool
  bbox : Box2I
  sums : Sums
  i0 : Option (ℚ × ℚ)
  x : Option ℚ
  y : Option ℚ
  iter : ℕ
deriving DecidableEq

/-- The state at the top of `getAdaptiveMoments` (SdssShape.cc lines
459-477); the default-constructed `BoxI` is modelled by the empty box
`(0,0)-(-1,-1)` (it is overwritten in the first iteration). -/
def amInit : AmState :=
  { s11 := 3/2, s12 := 0, s22 := 3/2
    w11 := -1, w12 := -1, w22 := -1
    e1old := 1000000, e2old := 1000000, s11owOld := 1000000
    interpflag := false
    bbox := ⟨0, 0, -1, -1⟩
    sums := {}
    i0 := none
    x := none, y := none
    iter := 0 }

/-- Lines 495-516 of SdssShape.cc: adopt the freshly computed weights; on
the transition into interpolation with `iter > 0`, keep the previous
weights, force `sigma11_ow_old = 1e6` and decrement `iter`.  `st` must
already carry this iteration's bounding box. -/
def amTransition (st : AmState) (detW gw11 gw12 gw22 : ℚ) : AmState :=
  if shouldInterp st.s11 st.s22 detW && !st.interpflag then
    if 0 < st.iter then
      { st with s11owOld := 1000000, interpflag := true, iter := st.iter - 1 }
    else
      { st with w11 := gw11, w12 := gw12, w22 := gw22, interpflag := true }
  else
    { st with w11 := gw11, w12 := gw12, w22 := gw22 }

/-- SdssShape.cc lines 587-616: compute the next weighting function from
the object-weighted moments by the Gaussian-product inverse: invert the
object-weighted moments, subtract the current weights, and invert back with
`careful = false`.  `none` models the two failure paths, which both set
`UNWEIGHTED` and break. -/
def amNextW (s11ow s12ow s22ow w11 w12 w22 : ℚ) : Option (ℚ × ℚ × ℚ) :=
  match getWeights s11ow s12ow s22ow true with
  | none => none
  | some (_, o11, o12, o22) =>
    match getWeights (o11 - w11) (o12 - w12) (o22 - w22) false with
    | none => none
    | some (_, ns11, ns12, ns22) => some (ns11, ns12, ns22)

/-- The outcome of one body of the iteration loop: `stop` models a `break`
(or the convergence exit), `next` falls through to `iter++` and the next
loop test. -/
inductive PassOut where
  | stop : AmState → Flags → PassOut
  | next : AmState → Flags → PassOut
deriving DecidableEq

/-- One body of the `for (; iter < maxIter; iter++)` loop of
`getAdaptiveMoments` (SdssShape.cc lines 479-621). -/
def amPass (img : SImg) (bkgd xcen ycen shiftmax : ℚ) (tol1 tol2 : ℚ)
    (aexp : ℚ → ℚ) (st : AmState) (fl : Flags) : PassOut :=
  -- line 479: recompute the bounding box
  let st1 := { st with
    bbox := set_amom_bbox img.w img.h xcen ycen st.s11 st.s22 }
  match getWeights st.s11 st.s12 st.s22 true with
  | none => .stop st1 { fl with unweighted := true }
  | some (detW, gw11, gw12, gw22) =>
    let st2 := amTransition st1 detW gw11 gw12 gw22
    match calcmom false img xcen ycen st2.bbox bkgd st2.interpflag
        st2.w11 st2.w12 st2.w22 aexp with
    | none => .stop st2 { fl with unweighted := true }
    | some d =>
      let st3 := { st2 with sums := d.sums, i0 := d.I0 }
      if !d.ok then .stop st3 { fl with unweighted := true }
      else
        -- lines 532-537: update the centroid, check the shift
        let xnew := d.sums.sx / d.sums.s
        let ynew := d.sums.sy / d.sums.s
        let st4 := { st3 with x := some xnew, y := some ynew }
        let fl1 :=
          if shiftmax < |xnew - xcen| ∨ shiftmax < |ynew - ycen| then
            { fl with shift := true }
          else fl
        -- lines 541-548: object-weighted second moments
        let s11ow := d.sums.sxx / d.sums.s
        let s22ow := d.sums.syy / d.sums.s
        let s12ow := d.sums.sxy / d.sums.s
        if s11ow ≤ 0 ∨ s22ow ≤ 0 then
          .stop st4 { fl1 with unweighted := true }
        else
          let dd := s11ow + s22ow
          let e1 := (s11ow - s22ow) / dd
          let e2 := 2 * s12ow / dd
          -- lines 556-559: convergence test
          if 0 < st4.iter ∧ |e1 - st.e1old| < tol1 ∧
              |e2 - st.e2old| < tol1 ∧
              |s11ow / st4.s11owOld - 1| < tol2 then
            .stop st4 fl1
          else
            let st5 := { st4 with
              e1old := e1, e2old := e2, s11owOld := s11ow }
            -- lines 587-616: next weighting function
            match amNextW s11ow s12ow s22ow st5.w11 st5.w12 st5.w22 with
            | none => .stop st5 { fl1 with unweighted := true }
            | some (ns11, ns12, ns22) =>
              let st6 := { st5 with
                s11 := ns11, s12 := ns12, s22 := ns22 }
              if ns11 ≤ 0 ∨ ns22 ≤ 0 then
                .stop st6 { fl1 with unweighted := true }
              else .next st6 fl1

/-- The `for (; iter < maxIter; iter++)` loop of `getAdaptiveMoments`
(SdssShape.cc lines 478-622), by recursion on `fuel` (the interpolation
transition can decrement `iter` once, so the loop runs at most
`maxIter + 1` times; `gamFull` supplies `fuel = maxIter + 2`).  Returns the
final state and flags when the loop exits (by `break` or by the loop
condition). -/
def amLoop (img : SImg) (bkgd xcen ycen shiftmax : ℚ) (maxIter : ℕ)
    (tol1 tol2 : ℚ) (aexp : ℚ → ℚ) :
    ℕ → AmState → Flags → AmState × Flags
  | 0, st, fl => (st, fl)
  | fuel + 1, st, fl =>
    if maxIter ≤ st.iter then (st, fl)
    else
      match amPass img bkgd xcen ycen shiftmax tol1 tol2 aexp st fl with
      | .stop st' fl' => (st', fl')
      | .next st' fl' =>
        amLoop img bkgd xcen ycen shiftmax maxIter tol1 tol2 aexp fuel
          { st' with iter := st'.iter + 1 } fl'

/-- The `SdssShapeImpl` output fields that `getAdaptiveMoments` writes.
All value fields start at NaN (`none`).  `i0` is the amplitude in its
`(sum, detW)` representation, `covarSet` records whether the Fisher-matrix
covariance block stored a covariance. -/
structure ShapeOut where
  x : Option ℚ := none
  y : Option ℚ := none
  ixx : Option ℚ := none
  ixy : Option ℚ := none
  iyy : Option ℚ := none
  i0 : Option (ℚ × ℚ) := none
  ixy4 : Option ℚ := none
  covarSet : Bool := false
  flags : Flags := {}
deriving DecidableEq

/-- How `getAdaptiveMoments` finished: returned `true`, returned `false`, or
threw (`calc_fisher`'s DomainError, caught by `apply`). -/
inductive GamRet where
  | ok : GamRet
  | failed : GamRet
  | threw : GamRet
deriving DecidableEq

/-- The full outcome of `getAdaptiveMoments`: the written `SdssShapeImpl`,
how the call returned, the final loop state (with the sums as merged by the
unweighted fallback, whose `calcmom` call passes `psums4 = NULL` and so
leaves `s4` untouched), and whether the unweighted fallback ran/succeeded. -/
structure GamTrace where
  shape : ShapeOut
  ret : GamRet
  st : AmState
  usedFallback : Bool := false
  fallbackOk : Bool := false
deriving DecidableEq

/-- The tail of `getAdaptiveMoments` after the moments are fixed
(SdssShape.cc lines 656-679): store amplitude and moments, then the
covariance block — `positionToIndex` is the nearest-integer index
`⌊xcen + 0.5⌋` (modelled from the spec; afw is external), the variance of a
plain `Image` is NaN (`none`, never `> 0`), and `calc_fisher` (lines 86-137)
throws a DomainError iff its determinant `D ≤ double epsilon` (its
`bkgd_var ≤ 0` throw is unreachable here, line 670 already checked it). -/
def gamTail (img : SImg) (xcen ycen : ℚ) (fl : Flags) (st : AmState)
    (s11 s12 s22 : ℚ) (sums : Sums) (i0 : Option (ℚ × ℚ))
    (usedFb fbOk : Bool) : GamTrace :=
  let base : ShapeOut :=
    { x := st.x, y := st.y
      ixx := some s11, ixy := some s12, iyy := some s22
      i0 := i0, ixy4 := some (sums.s4 / sums.s), flags := fl }
  let fisher :=
    if s11 + s22 ≠ 0 then
      let ix := ⌊xcen + 1/2⌋
      let iy := ⌊ycen + 1/2⌋
      if 0 ≤ ix ∧ ix < img.w ∧ 0 ≤ iy ∧ iy < img.h then
        match img.var with
        | none => (false, false)
        | some v =>
          if 0 < v ix iy then
            if !fl.unweighted then
              if s11 * s22 - s12 ^ 2 ≤ epsD then (false, true)  -- throws
              else (true, false)
            else (false, false)
          else (false, false)
      else (false, false)
    else (false, false)
  { shape := { base with covarSet := fisher.1 }
    ret := if fisher.2 then .threw else .ok
    st := { st with sums := sums, i0 := i0 }
    usedFallback := usedFb
    fallbackOk := fbOk }

/-- SdssShape.cc lines 624-631: the post-loop flag updates: `MAXITER` (plus
`UNWEIGHTED`) when the loop exhausted its iterations, and `UNWEIGHTED` when
`sumxx + sumyy == 0`. -/
def gamFlagsPost (maxIter : ℕ) (st : AmState) (fl : Flags) : Flags :=
  let fl1 :=
    if st.iter = maxIter then
      { fl with unweighted := true, maxIterHit := true }
    else fl
  if st.sums.sxx + st.sums.syy = 0 then { fl1 with unweighted := true }
  else fl1

/-- The result of the fallback's zero-weight `calcmom` call as seen by the
caller (SdssShape.cc lines 637-638): the merged accumulators (`psums4` is
`NULL`, so `s4` keeps its loop value; an early return writes nothing), the
merged amplitude, and whether the call returned `0`. -/
def gamMerge (st : AmState) (cm : Option CMData) :
    Sums × Option (ℚ × ℚ) × Bool :=
  match cm with
  | none => (st.sums, st.i0, false)
  | some d => ({ d.sums with s4 := st.sums.s4 }, d.I0, d.ok)

/-- The unweighted fallback of `getAdaptiveMoments` (SdssShape.cc lines
635-654): recompute the moments with zero weights; on failure or `sum ≤ 0`
clear `UNWEIGHTED`, set `UNWEIGHTED_BAD`, store the single-pixel moments
when `sum > 0`, and return `false`; on success store the unweighted moment
ratios. -/
def gamFallback (img : SImg) (bkgd xcen ycen : ℚ) (aexp : ℚ → ℚ)
    (st : AmState) (fl2 : Flags) : GamTrace :=
  let merged := gamMerge st (calcmom false img xcen ycen st.bbox bkgd
    st.interpflag 0 0 0 aexp)
  if !merged.2.2 ∨ merged.1.s ≤ 0 then
    let fl3 := { fl2 with unweighted := false, unweightedBad := true }
    let moments : Option ℚ × Option ℚ × Option ℚ :=
      if 0 < merged.1.s then (some (1/12), some 0, some (1/12))
      else (none, none, none)
    { shape := { x := st.x, y := st.y, ixx := moments.1,
                 ixy := moments.2.1, iyy := moments.2.2, flags := fl3 }
      ret := .failed
      st := { st with sums := merged.1, i0 := merged.2.1 }
      usedFallback := true }
  else
    gamTail img xcen ycen fl2 st (merged.1.sxx / merged.1.s)
      (merged.1.sxy / merged.1.s) (merged.1.syy / merged.1.s)
      merged.1 merged.2.1 true true

/-- The post-loop part of `getAdaptiveMoments` (SdssShape.cc lines 624-679):
the post-loop flag checks, then either the unweighted fallback (when
`UNWEIGHTED` is set) or the common tail with the converged weights. -/
def gamPost (img : SImg) (bkgd xcen ycen : ℚ) (maxIter : ℕ)
    (aexp : ℚ → ℚ) (p : AmState × Flags) : GamTrace :=
  let fl2 := gamFlagsPost maxIter p.1 p.2
  if fl2.unweighted then gamFallback img bkgd xcen ycen aexp p.1 fl2
  else
    gamTail img xcen ycen fl2 p.1 p.1.s11 p.1.s12 p.1.s22 p.1.sums p.1.i0
      false false

/-- `detail::getAdaptiveMoments(mimage, bkgd, xcen, ycen, shiftmax, shape,
maxIter, tol1, tol2)` (SdssShape.cc lines 447-680), with the full trace as
output.  A NaN input centroid (lines 469-473) sets `UNWEIGHTED_BAD` and
returns `false` immediately. -/
def gamFull (img : SImg) (bkgd : ℚ) (xcen ycen : Option ℚ)
    (shiftmax : ℚ) (maxIter : ℕ) (tol1 tol2 : ℚ) (aexp : ℚ → ℚ) :
    GamTrace :=
  match xcen, ycen with
  | some xc, some yc =>
    gamPost img bkgd xc yc maxIter aexp
      (amLoop img bkgd xc yc shiftmax maxIter tol1 tol2 aexp
        (maxIter + 2) amInit {})
  | _, _ =>
    { shape := { flags := { unweightedBad := true } }
      ret := .failed
      st := amInit }

/-- `getAdaptiveMoments` as the caller sees it: the written `SdssShapeImpl`
and the return value. -/
def getAdaptiveMoments (img : SImg) (bkgd : ℚ) (xcen ycen : Option ℚ)
    (shiftmax : ℚ) (maxIter : ℕ) (tol1 tol2 : ℚ) (aexp : ℚ → ℚ) :
    ShapeOut × GamRet :=
  let t := gamFull img bkgd xcen ycen shiftmax maxIter tol1 tol2 aexp
  (t.shape, t.ret)

/-!
### `SdssShapeAlgorithm::apply` (SdssShape.cc lines 888-939)
-/

/-- `SdssShapeControl`: the configuration fields `apply` reads. -/
structure SdssCtrl where
  background : ℚ := 0
  maxIter : ℕ := 100
  tol1 : ℚ := 1/100000
  tol2 : ℚ := 1/10000
  maxShift : ℚ := 0
deriving DecidableEq

/-- The `SdssShapeResult` fields `apply` fills: centroid and moments (in
parent coordinates) and the five flags
`FAILURE, UNWEIGHTED_BAD, UNWEIGHTED, SHIFT, MAXITER`. -/
structure SdssResult where
  x : Option ℚ := none
  y : Option ℚ := none
  xx : Option ℚ := none
  yy : Option ℚ := none
  xy : Option ℚ := none
  failure : Bool := false
  unweightedBad : Bool := false
  unweighted : Bool := false
  shift : Bool := false
  maxIterHit : Bool := false
deriving DecidableEq

/-- `SdssShapeAlgorithm::apply(mimage, footprint, center, control)` for a
MaskedImage (SdssShape.cc lines 888-939): convert the center to image-local
coordinates, clamp `maxShift` to `[2, 10]`, run `getAdaptiveMoments` inside
`try/catch` (a caught exception sets `FAILURE`), copy centroid and moments
back to parent coordinates, and copy each of the four `SdssShapeImpl` flags
to `flags[n + 1]`, setting `FAILURE` whenever any of them is set. -/
def applySdss (img : SImg) (cx cy : Option ℚ) (ctrl : SdssCtrl)
    (aexp : ℚ → ℚ) : SdssResult :=
  let xcen := cx.map fun v => v - (img.x0 : ℚ)
  let ycen := cy.map fun v => v - (img.y0 : ℚ)
  let smax := if ctrl.maxShift < 2 then (2 : ℚ)
              else if 10 < ctrl.maxShift then 10 else ctrl.maxShift
  let t := gamFull img ctrl.background xcen ycen smax ctrl.maxIter
    ctrl.tol1 ctrl.tol2 aexp
  let f := t.shape.flags
  { x := t.shape.x.map fun v => v + (img.x0 : ℚ)
    y := t.shape.y.map fun v => v + (img.y0 : ℚ)
    xx := t.shape.ixx
    yy := t.shape.iyy
    xy := t.shape.ixy
    failure := decide (t.ret = .threw) || f.unweightedBad || f.unweighted ||
      f.shift || f.maxIterHit
    unweightedBad := f.unweightedBad
    unweighted := f.unweighted
    shift := f.shift
    maxIterHit := f.maxIterHit }

/-!
### Auxiliary definitions for the stated properties
-/

/-- Forget the `SHIFT` flag (used to state that nothing except the `SHIFT`
flag depends on `maxShift`). -/
def Flags.clearShift (fl : Flags) : Flags :=
  { fl with shift := false }

/-- Forget the `SHIFT` flag of a full `getAdaptiveMoments` trace. -/
def GamTrace.clearShift (t : GamTrace) : GamTrace :=
  { t with shape := { t.shape with flags := t.shape.flags.clearShift } }

/-- A concrete admissible exponential model: the constant function `1`
(every value of `approxExp` only enters the properties below through its
sign, or cancels in ratios). -/
def aexpOne : ℚ → ℚ := fun _ => 1

/-- An 11×11 image holding `+10` at `(6, 6)` and `-5` at `(4, 6)`:
on this image the first iteration's object-weighted moments are
`(1, 3, 1)`, whose determinant is negative, so the solver falls into the
unweighted branch and stores the non-positive-semidefinite triple
`(Ixx, Ixy, Iyy) = (1, 3, 1)`. -/
def imgTwoPix : SImg :=
  { w := 11, h := 11
    pix := fun j i =>
      if j = 6 ∧ i = 6 then 10 else if j = 4 ∧ i = 6 then -5 else 0 }

/-- An 11×11 image holding `100` at the single pixel `(5, 5)`: the weighted
and unweighted moment fits both degenerate (`sumxx = sumyy = 0`) and the
fallback assigns the single-pixel moments `(1/12, 0, 1/12)`. -/
def imgOnePix : SImg :=
  { w := 11, h := 11
    pix := fun j i => if j = 5 ∧ i = 5 then 100 else 0 }

/-- Forget the `SHIFT` flag of a loop-pass outcome. -/
def PassOut.clearShift : PassOut → PassOut
  | .stop st fl => .stop st fl.clearShift
  | .next st fl => .next st fl.clearShift

/-- The flags carried by a loop-pass outcome. -/
def PassOut.flagsOf : PassOut → Flags
  | .stop _ fl => fl
  | .next _ fl => fl

/-- The state carried by a loop-pass outcome. -/
def PassOut.stateOf : PassOut → AmState
  | .stop st _ => st
  | .next st _ => st

/-- The determinant of the weighting function's moments matrix. -/
def AmState.detQ (st : AmState) : ℚ :=
  st.s11 * st.s22 - st.s12 * st.s12

/-- The moment accumulators form a positive-semidefinite triple:
`sumxy² ≤ sumxx · sumyy` with nonnegative diagonal. -/
def SumsPSD (st : Sums) : Prop :=
  0 ≤ st.sxx ∧ 0 ≤ st.syy ∧ st.sxy ^ 2 ≤ st.sxx * st.syy

/-- A record whose shape lies exactly on the validity boundary:
`Ixx·Iyy = (1 + 10⁻⁶)·Ixy²`, with no shape-flag key in the schema. -/
def recBoundary : ShapeRecord :=
  { shapeKeyValid := true
    ixx := some 1
    iyy := some (1000001 / 1000000)
    ixy := some 1
    shapeFlagKeyValid := true
    shapeFlag := false }

/-- A record whose shape slot holds a NaN component while the shape slot
flag exists and is set. -/
def recNanFlagged : ShapeRecord :=
  { shapeKeyValid := true
    ixx := none
    iyy := some 1
    ixy := some 0
    shapeFlagKeyValid := true
    shapeFlag := true }

/-!
## Properties

The claim theorems (and their witnesses/counterexamples) follow.
-/

/-- C1 (counterexample): at the concrete non-NaN input `(0, 0, 0)` — whose
determinant `0` is below float epsilon — `getWeights` with `careful = true`
returns failure (`ok = false`, modelled by `none`), not the inverse of the
inflated matrix: the first `det < epsilon` test already returns before the
careful branch, which is dead code. -/
theorem getWeights_careful_counterexample :
    ((0 : ℚ) * 0 - 0 * 0 < epsF) ∧ getWeights 0 0 0 true = none := by
  constructor
  · show (0 : ℚ) * 0 - 0 * 0 < 1 / 8388608
    norm_num
  · with_unfolding_all rfl

/-- C1 (amended): whenever the determinant `s11·s22 − s12²` is below float
epsilon, `getWeights` returns failure regardless of `careful`; the
careful inflation branch is unreachable. -/
theorem getWeights_smallDet_fails (s11 s12 s22 : ℚ) (c : Bool)
    (h : s11 * s22 - s12 * s12 < epsF) :
    getWeights s11 s12 s22 c = none := by
  unfold getWeights
  simp only [if_pos h]

/-- Witness for `getWeights_smallDet_fails` at `(0, 0, 0, careful = true)`. -/
theorem getWeights_smallDet_fails_witness :
    ((0 : ℚ) * 0 - 0 * 0 < epsF) ∧ getWeights 0 0 0 true = none := by
  have h : (0 : ℚ) * 0 - 0 * 0 < epsF := by
    show (0 : ℚ) * 0 - 0 * 0 < 1 / 8388608
    norm_num
  exact ⟨h, getWeights_smallDet_fails 0 0 0 true h⟩

/-- C5: `computeFlux` dispatches on the semi-minor axis: the sinc variant is
used exactly when `b ≤ maxSincRadius`, the naïve variant otherwise, for both
plain and masked images. -/
theorem computeFlux_dispatch (img : AImg) (ell : Ellipse) (msr : ℚ) :
    computeFlux img ell msr =
      (if ell.b ≤ msr then computeSincFlux img ell
       else computeNaiveFlux img ell) ∧
    computeFluxMasked img ell msr =
      (if ell.b ≤ msr then computeSincFluxMasked img ell
       else computeNaiveFluxMasked img ell) :=
  ⟨rfl, rfl⟩

/-- C4: the sinc-variant truncation logic.  `SINC_COEFFS_TRUNCATED` is set
exactly when the shifted coefficient image does not fit in the image
bounding box; `APERTURE_TRUNCATED` and `FAILURE` are set exactly when
additionally the clipped overlap does not contain the ellipse's own bounding
box, in which case no flux is computed; otherwise the flux is the
coefficient-weighted sum over the (possibly clipped) coefficient box. -/
theorem computeSincFlux_truncation (img : AImg) (ell : Ellipse) :
    (computeSincFlux img ell).sincCoeffsTruncated
        = !(img.bbox.containsBox ell.coeffBox) ∧
    (computeSincFlux img ell).apertureTruncated
        = (!(img.bbox.containsBox ell.coeffBox) &&
           !((ell.coeffBox.clip img.bbox).containsBox ell.bboxI)) ∧
    (computeSincFlux img ell).failure
        = (computeSincFlux img ell).apertureTruncated ∧
    (computeSincFlux img ell).instFlux
        = (if (!(img.bbox.containsBox ell.coeffBox) &&
               !((ell.coeffBox.clip img.bbox).containsBox ell.bboxI)) then
             none
           else
             some (boxSum
               (if img.bbox.containsBox ell.coeffBox then ell.coeffBox
                else ell.coeffBox.clip img.bbox)
               fun x y => img.pix x y * ell.coeff x y)) := by
  cases hc : img.bbox.containsBox ell.coeffBox <;>
    cases ho : (ell.coeffBox.clip img.bbox).containsBox ell.bboxI <;>
      simp [computeSincFlux, getSincCoeffs, hc, ho]

/-- C6: the naïve variant sets `APERTURE_TRUNCATED` and `FAILURE` and
computes nothing when the pixel-region bounding box does not fit in the
image; otherwise `instFlux` is the plain sum of pixels over the spans, and
for a MaskedImage the squared error is the sum of the variance over the
same pixels, so `instFluxErr = √(Σ variance) ≥ 0`. -/
theorem computeNaiveFlux_spec (img : AImg) (ell : Ellipse) :
    (computeNaiveFlux img ell =
      if img.bbox.containsBox ell.regionBBox then
        { instFlux := some (spansSum ell.spans img.pix) }
      else { apertureTruncated := true, failure := true }) ∧
    (computeNaiveFluxMasked img ell =
      if img.bbox.containsBox ell.regionBBox then
        { instFlux := some (spansSum ell.spans img.pix)
          instFluxErrSq := some (spansSum ell.spans img.var) }
      else { apertureTruncated := true, failure := true }) ∧
    0 ≤ Real.sqrt ((spansSum ell.spans img.var : ℚ) : ℝ) := by
  refine ⟨?_, ?_, Real.sqrt_nonneg _⟩ <;>
    cases hc : img.bbox.containsBox ell.regionBBox <;>
      simp [computeNaiveFlux, computeNaiveFluxMasked, hc]

/-- C10: a NaN input centroid makes `getAdaptiveMoments` set
`UNWEIGHTED_BAD` (and no other flag) and return `false` before the
iteration loop, leaving every value field of the output at its initial NaN
value. -/
theorem gam_nan_centroid (img : SImg) (bkgd : ℚ) (xc yc : Option ℚ)
    (smax : ℚ) (mi : ℕ) (t1 t2 : ℚ) (aexp : ℚ → ℚ)
    (h : xc = none ∨ yc = none) :
    getAdaptiveMoments img bkgd xc yc smax mi t1 t2 aexp =
      ({ flags := { unweightedBad := true } }, .failed) := by
  rcases h with h | h <;> subst h
  · rfl
  · cases xc <;> rfl

/-- Witness for `gam_nan_centroid`: a concrete NaN centroid. -/
theorem gam_nan_centroid_witness :
    ((none : Option ℚ) = none ∨ (some (5 : ℚ)) = none) ∧
    getAdaptiveMoments imgOnePix 0 none (some 5) 2 100 (1/100000) (1/10000)
        aexpOne =
      ({ flags := { unweightedBad := true } }, .failed) :=
  ⟨Or.inl rfl,
   gam_nan_centroid imgOnePix 0 none (some 5) 2 100 (1/100000) (1/10000)
     aexpOne (Or.inl rfl)⟩

/-- C8 (counterexample): a record whose shape lies exactly on the boundary
`Ixx·Iyy = (1 + 10⁻⁶)·Ixy²` satisfies the claim's invalidity condition
(`Ixx·Iyy ≤ (1 + 10⁻⁶)·Ixy²`) and has its shape-flag unset, so the claim
demands a runtime error; the source's test is strict `<`, so the extractor
returns the quadrupole instead. -/
theorem safeShape_boundary_counterexample :
    ((1 : ℚ) * (1000001 / 1000000) ≤ (1 + 1 / 1000000) * (1 * 1)) ∧
    safeShapeExtract recBoundary 0 =
      .ok (1, 1000001 / 1000000, 1) false := by
  constructor
  · norm_num
  · with_unfolding_all rfl

/-- C8 (amended): with the source's strict invalidity test (some component
NaN, or `Ixx·Iyy < (1 + 10⁻⁶)·Ixy²`), an invalid shape raises a runtime
error when the shape-flag key is missing, a runtime error when the key
exists but the flag is unset, and a measurement error carrying the general
failure flag number when the flag is set; and the extractor never returns a
strictly-invalid quadrupole. -/
theorem safeShapeExtract_invalid_raises (rec : ShapeRecord) (n : ℕ)
    (hk : rec.shapeKeyValid = true) :
    (shapeInvalid rec.ixx rec.iyy rec.ixy = true →
      (rec.shapeFlagKeyValid = false →
        safeShapeExtract rec n = .runtimeErr) ∧
      (rec.shapeFlagKeyValid = true → rec.shapeFlag = false →
        safeShapeExtract rec n = .runtimeErr) ∧
      (rec.shapeFlagKeyValid = true → rec.shapeFlag = true →
        safeShapeExtract rec n = .measurementErr n)) ∧
    (∀ a b c g, safeShapeExtract rec n = .ok (a, b, c) g →
      ¬(a * b < (1 + 1 / 1000000) * (c * c))) := by
  constructor
  · intro hinv
    refine ⟨?_, ?_, ?_⟩ <;> intro h1 <;> try intro h2
    · simp [safeShapeExtract, hk, hinv, h1]
    · simp [safeShapeExtract, hk, hinv, h1, h2]
    · simp [safeShapeExtract, hk, hinv, h1, h2]
  · intro a b c g hok
    unfold safeShapeExtract at hok
    rw [hk] at hok
    simp only [Bool.not_true, Bool.false_eq_true, if_false] at hok
    by_cases hinv : shapeInvalid rec.ixx rec.iyy rec.ixy = true
    · rw [if_pos hinv] at hok
      cases hfk : rec.shapeFlagKeyValid <;> cases hff : rec.shapeFlag <;>
        simp [hfk, hff] at hok
    · rw [if_neg hinv] at hok
      cases hx : rec.ixx with
      | none => exact absurd (by rw [hx]; rfl) hinv
      | some va =>
        cases hy : rec.iyy with
        | none => exact absurd (by rw [hx, hy]; rfl) hinv
        | some vb =>
          cases hz : rec.ixy with
          | none => exact absurd (by rw [hx, hy, hz]; rfl) hinv
          | some vc =>
            have hv : ¬(va * vb < (1 + 1 / 1000000) * (vc * vc)) := by
              intro hlt
              exact hinv (by rw [hx, hy, hz]; simpa [shapeInvalid] using hlt)
            rw [hx, hy, hz] at hok
            have habc : va = a ∧ vb = b ∧ vc = c := by
              split at hok <;>
                simp only [ShapeExtractOut.ok.injEq, Prod.mk.injEq,
                  Option.getD] at hok <;> tauto
            obtain ⟨ha, hb, hc⟩ := habc
            rw [← ha, ← hb, ← hc]
            exact hv

/-- Witness for `safeShapeExtract_invalid_raises`: a NaN shape with the slot
flag set raises the measurement error carrying flag number 0. -/
theorem safeShapeExtract_invalid_raises_witness :
    recNanFlagged.shapeKeyValid = true ∧
    shapeInvalid recNanFlagged.ixx recNanFlagged.iyy recNanFlagged.ixy
      = true ∧
    safeShapeExtract recNanFlagged 0 = .measurementErr 0 := by
  refine ⟨rfl, rfl, ?_⟩
  exact ((safeShapeExtract_invalid_raises recNanFlagged 0 rfl).1 rfl).2.2
    rfl rfl

/-- C2 (counterexample): on the concrete image `imgTwoPix` (one positive
and one negative pixel) with the non-NaN centroid `(5, 5)`, the returned
moments are `(Ixx, Iyy, Ixy) = (1, 1, 3)` with the `UNWEIGHTED` flag set,
and `Ixx·Iyy = 1 < 9 - ε = Ixy² - ε`: the claimed invariant fails.
(`aexpOne` is an admissible exponential model: only `approxExp 0 = 1 > 0`
and `approxExp (-2/3) > 0` enter this run, and every weight cancels in the
stored ratios.) -/
theorem gam_psd_counterexample :
    (gamFull imgTwoPix 0 (some 5) (some 5) 2 2 (1/100000) (1/10000)
        aexpOne).shape.ixx = some 1 ∧
    (gamFull imgTwoPix 0 (some 5) (some 5) 2 2 (1/100000) (1/10000)
        aexpOne).shape.iyy = some 1 ∧
    (gamFull imgTwoPix 0 (some 5) (some 5) 2 2 (1/100000) (1/10000)
        aexpOne).shape.ixy = some 3 ∧
    (gamFull imgTwoPix 0 (some 5) (some 5) 2 2 (1/100000) (1/10000)
        aexpOne).shape.flags.unweighted = true ∧
    ¬((3 : ℚ) ^ 2 - epsF ≤ 1 * 1) := by
  refine ⟨?_, ?_, ?_, ?_, ?_⟩ <;> with_unfolding_all decide

/-- C3 (counterexample): on the same run the unweighted fallback succeeds
with `sum = 5`, `sumxy = 15`, `sumyy = 5`, and the stored `Iyy` is
`sumyy/sum = 1`, not `sumxy/sum = 3` as the claim's tuple ordering states
(and `Ixy` is `sumxy/sum = 3`, not `sumyy/sum = 1`). -/
theorem gam_fallback_ordering_counterexample :
    (gamFull imgTwoPix 0 (some 5) (some 5) 2 2 (1/100000) (1/10000)
        aexpOne).usedFallback = true ∧
    (gamFull imgTwoPix 0 (some 5) (some 5) 2 2 (1/100000) (1/10000)
        aexpOne).fallbackOk = true ∧
    (gamFull imgTwoPix 0 (some 5) (some 5) 2 2 (1/100000) (1/10000)
        aexpOne).st.sums.s = 5 ∧
    (gamFull imgTwoPix 0 (some 5) (some 5) 2 2 (1/100000) (1/10000)
        aexpOne).st.sums.sxy = 15 ∧
    (gamFull imgTwoPix 0 (some 5) (some 5) 2 2 (1/100000) (1/10000)
        aexpOne).shape.iyy ≠
      some ((gamFull imgTwoPix 0 (some 5) (some 5) 2 2 (1/100000) (1/10000)
        aexpOne).st.sums.sxy /
          (gamFull imgTwoPix 0 (some 5) (some 5) 2 2 (1/100000) (1/10000)
        aexpOne).st.sums.s) := by
  refine ⟨?_, ?_, ?_, ?_, ?_⟩ <;> with_unfolding_all decide

theorem gamTail_fields (img : SImg) (xc yc : ℚ) (fl : Flags) (st : AmState)
    (s11 s12 s22 : ℚ) (sums : Sums) (i0 : Option (ℚ × ℚ)) (u f : Bool) :
    (gamTail img xc yc fl st s11 s12 s22 sums i0 u f).shape.ixx = some s11 ∧
    (gamTail img xc yc fl st s11 s12 s22 sums i0 u f).shape.ixy = some s12 ∧
    (gamTail img xc yc fl st s11 s12 s22 sums i0 u f).shape.iyy = some s22 ∧
    (gamTail img xc yc fl st s11 s12 s22 sums i0 u f).st.sums = sums ∧
    (gamTail img xc yc fl st s11 s12 s22 sums i0 u f).usedFallback = u ∧
    (gamTail img xc yc fl st s11 s12 s22 sums i0 u f).fallbackOk = f ∧
    (gamTail img xc yc fl st s11 s12 s22 sums i0 u f).shape.flags = fl :=
  ⟨rfl, rfl, rfl, rfl, rfl, rfl, rfl⟩

theorem gamPost_usedFallback_eq (img : SImg) (bkgd xc yc : ℚ) (mi : ℕ)
    (aexp : ℚ → ℚ) (p : AmState × Flags)
    (h : (gamPost img bkgd xc yc mi aexp p).usedFallback = true) :
    (gamFlagsPost mi p.1 p.2).unweighted = true ∧
    gamPost img bkgd xc yc mi aexp p =
      gamFallback img bkgd xc yc aexp p.1 (gamFlagsPost mi p.1 p.2) := by
  by_cases hc : (gamFlagsPost mi p.1 p.2).unweighted = true
  · exact ⟨hc, by simp [gamPost, hc]⟩
  · exfalso
    have he : gamPost img bkgd xc yc mi aexp p =
        gamTail img xc yc (gamFlagsPost mi p.1 p.2) p.1 p.1.s11 p.1.s12
          p.1.s22 p.1.sums p.1.i0 false false := by
      simp [gamPost, hc]
    rw [he,
      (gamTail_fields img xc yc _ _ _ _ _ _ _ _ _).2.2.2.2.1] at h
    exact Bool.false_ne_true h

theorem gamFallback_ok_eq (img : SImg) (bkgd xc yc : ℚ) (aexp : ℚ → ℚ)
    (st : AmState) (fl2 : Flags)
    (h : (gamFallback img bkgd xc yc aexp st fl2).fallbackOk = true) :
    gamFallback img bkgd xc yc aexp st fl2 =
      gamTail img xc yc fl2 st
        ((gamMerge st (calcmom false img xc yc st.bbox bkgd st.interpflag
          0 0 0 aexp)).1.sxx /
         (gamMerge st (calcmom false img xc yc st.bbox bkgd st.interpflag
          0 0 0 aexp)).1.s)
        ((gamMerge st (calcmom false img xc yc st.bbox bkgd st.interpflag
          0 0 0 aexp)).1.sxy /
         (gamMerge st (calcmom false img xc yc st.bbox bkgd st.interpflag
          0 0 0 aexp)).1.s)
        ((gamMerge st (calcmom false img xc yc st.bbox bkgd st.interpflag
          0 0 0 aexp)).1.syy /
         (gamMerge st (calcmom false img xc yc st.bbox bkgd st.interpflag
          0 0 0 aexp)).1.s)
        (gamMerge st (calcmom false img xc yc st.bbox bkgd st.interpflag
          0 0 0 aexp)).1
        (gamMerge st (calcmom false img xc yc st.bbox bkgd st.interpflag
          0 0 0 aexp)).2.1
        true true := by
  simp only [gamFallback] at h ⊢
  split at h
  next hcond => exact absurd h (by simp)
  next hcond => rw [if_neg hcond]

/-- C3 (amended): when `getAdaptiveMoments` takes the unweighted fallback
and the zero-weight `calcmom` succeeds with `sum > 0`, the stored triple is
`(Ixx, Ixy, Iyy) = (sumxx/sum, sumxy/sum, sumyy/sum)` — i.e. `Ixy` (not
`Iyy`) receives `sumxy/sum`, and `Iyy` receives `sumyy/sum`. -/
theorem gam_fallback_moments (img : SImg) (bkgd : ℚ) (xc yc : Option ℚ)
    (smax : ℚ) (mi : ℕ) (t1 t2 : ℚ) (aexp : ℚ → ℚ)
    (hfb : (gamFull img bkgd xc yc smax mi t1 t2 aexp).usedFallback = true)
    (hok : (gamFull img bkgd xc yc smax mi t1 t2 aexp).fallbackOk = true) :
    (gamFull img bkgd xc yc smax mi t1 t2 aexp).shape.ixx =
      some ((gamFull img bkgd xc yc smax mi t1 t2 aexp).st.sums.sxx /
        (gamFull img bkgd xc yc smax mi t1 t2 aexp).st.sums.s) ∧
    (gamFull img bkgd xc yc smax mi t1 t2 aexp).shape.ixy =
      some ((gamFull img bkgd xc yc smax mi t1 t2 aexp).st.sums.sxy /
        (gamFull img bkgd xc yc smax mi t1 t2 aexp).st.sums.s) ∧
    (gamFull img bkgd xc yc smax mi t1 t2 aexp).shape.iyy =
      some ((gamFull img bkgd xc yc smax mi t1 t2 aexp).st.sums.syy /
        (gamFull img bkgd xc yc smax mi t1 t2 aexp).st.sums.s) := by
  cases xc with
  | none => simp [gamFull] at hfb
  | some xv =>
    cases yc with
    | none => simp [gamFull] at hfb
    | some yv =>
      simp only [gamFull] at hfb hok ⊢
      generalize amLoop img bkgd xv yv smax mi t1 t2 aexp (mi + 2)
        amInit {} = p at hfb hok ⊢
      obtain ⟨-, he⟩ := gamPost_usedFallback_eq img bkgd xv yv mi aexp p hfb
      rw [he] at hok ⊢
      rw [gamFallback_ok_eq img bkgd xv yv aexp p.1 _ hok]
      obtain ⟨h1, h2, h3, h4, -⟩ := gamTail_fields img xv yv
        (gamFlagsPost mi p.1 p.2) p.1 _ _ _ _ _ true true
      rw [h1, h2, h3, h4]
      exact ⟨rfl, rfl, rfl⟩

/-- Witness for `gam_fallback_moments`: the `imgTwoPix` run takes the
fallback and stores the fallback's sum ratios. -/
theorem gam_fallback_moments_witness :
    (gamFull imgTwoPix 0 (some 5) (some 5) 2 2 (1/100000) (1/10000)
        aexpOne).usedFallback = true ∧
    (gamFull imgTwoPix 0 (some 5) (some 5) 2 2 (1/100000) (1/10000)
        aexpOne).fallbackOk = true ∧
    (gamFull imgTwoPix 0 (some 5) (some 5) 2 2 (1/100000) (1/10000)
        aexpOne).shape.ixy =
      some ((gamFull imgTwoPix 0 (some 5) (some 5) 2 2 (1/100000)
        (1/10000) aexpOne).st.sums.sxy /
          (gamFull imgTwoPix 0 (some 5) (some 5) 2 2 (1/100000) (1/10000)
        aexpOne).st.sums.s) := by
  have h1 : (gamFull imgTwoPix 0 (some 5) (some 5) 2 2 (1/100000)
      (1/10000) aexpOne).usedFallback = true := by
    with_unfolding_all decide
  have h2 : (gamFull imgTwoPix 0 (some 5) (some 5) 2 2 (1/100000)
      (1/10000) aexpOne).fallbackOk = true := by
    with_unfolding_all decide
  exact ⟨h1, h2,
    (gam_fallback_moments imgTwoPix 0 (some 5) (some 5) 2 2 (1/100000)
      (1/10000) aexpOne h1 h2).2.1⟩

/-- C9: `SdssShapeAlgorithm::apply` copies each `SdssShapeImpl` flag to the
corresponding result flag and sets the general `FAILURE` flag whenever any
of them is set — in particular a result with `SHIFT` set always has
`FAILURE` set. -/
theorem applySdss_flag_propagation (img : SImg) (cx cy : Option ℚ)
    (ctrl : SdssCtrl) (aexp : ℚ → ℚ) :
    ((gamFull img ctrl.background (cx.map fun v => v - (img.x0 : ℚ))
        (cy.map fun v => v - (img.y0 : ℚ))
        (if ctrl.maxShift < 2 then (2 : ℚ)
         else if 10 < ctrl.maxShift then 10 else ctrl.maxShift)
        ctrl.maxIter ctrl.tol1 ctrl.tol2
        aexp).shape.flags.unweightedBad = true →
      (applySdss img cx cy ctrl aexp).unweightedBad = true ∧
      (applySdss img cx cy ctrl aexp).failure = true) ∧
    ((gamFull img ctrl.background (cx.map fun v => v - (img.x0 : ℚ))
        (cy.map fun v => v - (img.y0 : ℚ))
        (if ctrl.maxShift < 2 then (2 : ℚ)
         else if 10 < ctrl.maxShift then 10 else ctrl.maxShift)
        ctrl.maxIter ctrl.tol1 ctrl.tol2
        aexp).shape.flags.unweighted = true →
      (applySdss img cx cy ctrl aexp).unweighted = true ∧
      (applySdss img cx cy ctrl aexp).failure = true) ∧
    ((gamFull img ctrl.background (cx.map fun v => v - (img.x0 : ℚ))
        (cy.map fun v => v - (img.y0 : ℚ))
        (if ctrl.maxShift < 2 then (2 : ℚ)
         else if 10 < ctrl.maxShift then 10 else ctrl.maxShift)
        ctrl.maxIter ctrl.tol1 ctrl.tol2
        aexp).shape.flags.shift = true →
      (applySdss img cx cy ctrl aexp).shift = true ∧
      (applySdss img cx cy ctrl aexp).failure = true) ∧
    ((gamFull img ctrl.background (cx.map fun v => v - (img.x0 : ℚ))
        (cy.map fun v => v - (img.y0 : ℚ))
        (if ctrl.maxShift < 2 then (2 : ℚ)
         else if 10 < ctrl.maxShift then 10 else ctrl.maxShift)
        ctrl.maxIter ctrl.tol1 ctrl.tol2
        aexp).shape.flags.maxIterHit = true →
      (applySdss img cx cy ctrl aexp).maxIterHit = true ∧
      (applySdss img cx cy ctrl aexp).failure = true) := by
  refine ⟨fun h => ⟨?_, ?_⟩, fun h => ⟨?_, ?_⟩, fun h => ⟨?_, ?_⟩,
    fun h => ⟨?_, ?_⟩⟩ <;>
    simp [applySdss, h]

/-- Witness for `applySdss_flag_propagation`: the `imgTwoPix` measurement
ends with the solver's `SHIFT` flag set, and the returned result has both
`SHIFT` and `FAILURE` set. -/
theorem applySdss_flag_propagation_witness :
    (applySdss imgTwoPix (some 5) (some 5) { maxShift := 2 }
      aexpOne).shift = true ∧
    (applySdss imgTwoPix (some 5) (some 5) { maxShift := 2 }
      aexpOne).failure = true := by
  apply (applySdss_flag_propagation imgTwoPix (some 5) (some 5)
    { maxShift := 2 } aexpOne).2.2.1
  with_unfolding_all decide

theorem Flags.clearShift_iff (f1 f2 : Flags) :
    f1.clearShift = f2.clearShift ↔
      (f1.unweightedBad = f2.unweightedBad ∧ f1.unweighted = f2.unweighted ∧
        f1.maxIterHit = f2.maxIterHit) := by
  obtain ⟨a1, b1, c1, d1⟩ := f1
  obtain ⟨a2, b2, c2, d2⟩ := f2
  simp [Flags.clearShift]

theorem amPass_shiftmax_indep (img : SImg) (bkgd xc yc s1 s2 t1 t2 : ℚ)
    (aexp : ℚ → ℚ) (st : AmState) (fl1 fl2 : Flags)
    (h : fl1.clearShift = fl2.clearShift) :
    (amPass img bkgd xc yc s1 t1 t2 aexp st fl1).clearShift =
      (amPass img bkgd xc yc s2 t1 t2 aexp st fl2).clearShift := by
  obtain ⟨a1, b1, c1, d1⟩ := fl1
  obtain ⟨a2, b2, c2, d2⟩ := fl2
  simp only [Flags.clearShift, Flags.mk.injEq] at h
  obtain ⟨ha, hb, -, hd⟩ := h
  subst ha hb hd
  simp only [amPass]
  cases hgw : getWeights st.s11 st.s12 st.s22 true with
  | none => simp [PassOut.clearShift, Flags.clearShift]
  | some w =>
    obtain ⟨detW, g1, g2, g3⟩ := w
    simp only
    cases hcm : calcmom false img xc yc
        (amTransition
          { st with bbox := set_amom_bbox img.w img.h xc yc st.s11 st.s22 }
          detW g1 g2 g3).bbox bkgd
        (amTransition
          { st with bbox := set_amom_bbox img.w img.h xc yc st.s11 st.s22 }
          detW g1 g2 g3).interpflag
        (amTransition
          { st with bbox := set_amom_bbox img.w img.h xc yc st.s11 st.s22 }
          detW g1 g2 g3).w11
        (amTransition
          { st with bbox := set_amom_bbox img.w img.h xc yc st.s11 st.s22 }
          detW g1 g2 g3).w12
        (amTransition
          { st with bbox := set_amom_bbox img.w img.h xc yc st.s11 st.s22 }
          detW g1 g2 g3).w22 aexp with
    | none => simp [PassOut.clearShift, Flags.clearShift]
    | some d =>
      simp only
      split
      · simp [PassOut.clearShift, Flags.clearShift]
      · repeat' split
        all_goals simp [PassOut.clearShift, Flags.clearShift]

theorem amLoop_shiftmax_indep (img : SImg) (bkgd xc yc s1 s2 t1 t2 : ℚ)
    (mi : ℕ) (aexp : ℚ → ℚ) :
    ∀ (fuel : ℕ) (st : AmState) (fl1 fl2 : Flags),
      fl1.clearShift = fl2.clearShift →
      (amLoop img bkgd xc yc s1 mi t1 t2 aexp fuel st fl1).1 =
        (amLoop img bkgd xc yc s2 mi t1 t2 aexp fuel st fl2).1 ∧
      (amLoop img bkgd xc yc s1 mi t1 t2 aexp fuel st fl1).2.clearShift =
        (amLoop img bkgd xc yc s2 mi t1 t2 aexp fuel st fl2).2.clearShift
  | 0, st, fl1, fl2, h => ⟨rfl, h⟩
  | fuel + 1, st, fl1, fl2, h => by
    simp only [amLoop]
    split
    · exact ⟨rfl, h⟩
    · have hp := amPass_shiftmax_indep img bkgd xc yc s1 s2 t1 t2 aexp st
        fl1 fl2 h
      cases h1 : amPass img bkgd xc yc s1 t1 t2 aexp st fl1 with
      | stop st1 g1 =>
        cases h2 : amPass img bkgd xc yc s2 t1 t2 aexp st fl2 with
        | stop st2 g2 =>
          rw [h1, h2] at hp
          simp only [PassOut.clearShift, PassOut.stop.injEq] at hp
          exact ⟨hp.1, hp.2⟩
        | next st2 g2 => rw [h1, h2] at hp; simp [PassOut.clearShift] at hp
      | next st1 g1 =>
        cases h2 : amPass img bkgd xc yc s2 t1 t2 aexp st fl2 with
        | stop st2 g2 => rw [h1, h2] at hp; simp [PassOut.clearShift] at hp
        | next st2 g2 =>
          rw [h1, h2] at hp
          simp only [PassOut.clearShift, PassOut.next.injEq] at hp
          obtain ⟨hst, hfl⟩ := hp
          subst hst
          exact amLoop_shiftmax_indep img bkgd xc yc s1 s2 t1 t2 mi aexp
            fuel { st1 with iter := st1.iter + 1 } g1 g2 hfl

theorem gamFlagsPost_clearShift (mi : ℕ) (st : AmState) (fl1 fl2 : Flags)
    (h : fl1.clearShift = fl2.clearShift) :
    (gamFlagsPost mi st fl1).clearShift = (gamFlagsPost mi st fl2).clearShift := by
  obtain ⟨a1, b1, c1, d1⟩ := fl1
  obtain ⟨a2, b2, c2, d2⟩ := fl2
  simp only [Flags.clearShift, Flags.mk.injEq] at h
  obtain ⟨ha, hb, -, hd⟩ := h
  subst ha hb hd
  simp only [gamFlagsPost]
  repeat' split
  all_goals simp [Flags.clearShift]

theorem gamTail_clearShift (img : SImg) (xc yc : ℚ) (fl1 fl2 : Flags)
    (st : AmState) (s11 s12 s22 : ℚ) (sums : Sums) (i0 : Option (ℚ × ℚ))
    (u f : Bool) (h : fl1.clearShift = fl2.clearShift) :
    (gamTail img xc yc fl1 st s11 s12 s22 sums i0 u f).clearShift =
      (gamTail img xc yc fl2 st s11 s12 s22 sums i0 u f).clearShift := by
  obtain ⟨a1, b1, c1, d1⟩ := fl1
  obtain ⟨a2, b2, c2, d2⟩ := fl2
  simp only [Flags.clearShift, Flags.mk.injEq] at h
  obtain ⟨ha, hb, -, hd⟩ := h
  subst ha hb hd
  simp only [gamTail, GamTrace.clearShift, Flags.clearShift]

theorem gamFallback_clearShift (img : SImg) (bkgd xc yc : ℚ)
    (aexp : ℚ → ℚ) (st : AmState) (fl1 fl2 : Flags)
    (h : fl1.clearShift = fl2.clearShift) :
    (gamFallback img bkgd xc yc aexp st fl1).clearShift =
      (gamFallback img bkgd xc yc aexp st fl2).clearShift := by
  simp only [gamFallback]
  split
  · obtain ⟨a1, b1, c1, d1⟩ := fl1
    obtain ⟨a2, b2, c2, d2⟩ := fl2
    simp only [Flags.clearShift, Flags.mk.injEq] at h
    obtain ⟨ha, hb, -, hd⟩ := h
    subst ha hb hd
    simp [GamTrace.clearShift, Flags.clearShift]
  · exact gamTail_clearShift img xc yc fl1 fl2 st _ _ _ _ _ true true h

theorem gamPost_shiftmax_indep (img : SImg) (bkgd xc yc : ℚ) (mi : ℕ)
    (aexp : ℚ → ℚ) (st : AmState) (fl1 fl2 : Flags)
    (h : fl1.clearShift = fl2.clearShift) :
    (gamPost img bkgd xc yc mi aexp (st, fl1)).clearShift =
      (gamPost img bkgd xc yc mi aexp (st, fl2)).clearShift := by
  have hf := gamFlagsPost_clearShift mi st fl1 fl2 h
  have hu : (gamFlagsPost mi st fl1).unweighted =
      (gamFlagsPost mi st fl2).unweighted :=
    ((Flags.clearShift_iff _ _).1 hf).2.1
  simp only [gamPost]
  by_cases hc : (gamFlagsPost mi st fl1).unweighted = true
  · rw [if_pos hc, if_pos (hu ▸ hc)]
    exact gamFallback_clearShift img bkgd xc yc aexp st _ _ hf
  · rw [if_neg hc, if_neg fun hcc => hc (hu ▸ hcc)]
    exact gamTail_clearShift img xc yc _ _ st _ _ _ _ _ false false hf

theorem amPass_shift_mono (img : SImg) (bkgd xc yc smax t1 t2 : ℚ)
    (aexp : ℚ → ℚ) (st : AmState) (fl : Flags) (h : fl.shift = true) :
    ((amPass img bkgd xc yc smax t1 t2 aexp st fl).flagsOf).shift = true := by
  obtain ⟨a, b, c, d⟩ := fl
  simp only at h
  subst h
  simp only [amPass]
  cases hgw : getWeights st.s11 st.s12 st.s22 true with
  | none => simp [PassOut.flagsOf]
  | some w =>
    obtain ⟨detW, g1, g2, g3⟩ := w
    simp only
    cases hcm : calcmom false img xc yc
        (amTransition
          { st with bbox := set_amom_bbox img.w img.h xc yc st.s11 st.s22 }
          detW g1 g2 g3).bbox bkgd
        (amTransition
          { st with bbox := set_amom_bbox img.w img.h xc yc st.s11 st.s22 }
          detW g1 g2 g3).interpflag
        (amTransition
          { st with bbox := set_amom_bbox img.w img.h xc yc st.s11 st.s22 }
          detW g1 g2 g3).w11
        (amTransition
          { st with bbox := set_amom_bbox img.w img.h xc yc st.s11 st.s22 }
          detW g1 g2 g3).w12
        (amTransition
          { st with bbox := set_amom_bbox img.w img.h xc yc st.s11 st.s22 }
          detW g1 g2 g3).w22 aexp with
    | none => simp [PassOut.flagsOf]
    | some d2 =>
      simp only
      repeat' split
      all_goals simp [PassOut.flagsOf]

theorem amLoop_shift_mono (img : SImg) (bkgd xc yc smax t1 t2 : ℚ)
    (mi : ℕ) (aexp : ℚ → ℚ) :
    ∀ (fuel : ℕ) (st : AmState) (fl : Flags), fl.shift = true →
      (amLoop img bkgd xc yc smax mi t1 t2 aexp fuel st fl).2.shift = true
  | 0, _, _, h => h
  | fuel + 1, st, fl, h => by
    simp only [amLoop]
    split
    · exact h
    · have hp := amPass_shift_mono img bkgd xc yc smax t1 t2 aexp st fl h
      cases hpass : amPass img bkgd xc yc smax t1 t2 aexp st fl with
      | stop st1 g1 =>
        rw [hpass] at hp
        exact hp
      | next st1 g1 =>
        rw [hpass] at hp
        exact amLoop_shift_mono img bkgd xc yc smax t1 t2 mi aexp fuel
          { st1 with iter := st1.iter + 1 } g1 hp

theorem gamFull_shiftmax_indep (img : SImg) (bkgd : ℚ) (xc yc : Option ℚ)
    (s1 s2 : ℚ) (mi : ℕ) (t1 t2 : ℚ) (aexp : ℚ → ℚ) :
    (gamFull img bkgd xc yc s1 mi t1 t2 aexp).clearShift =
      (gamFull img bkgd xc yc s2 mi t1 t2 aexp).clearShift := by
  cases xc with
  | none => cases yc <;> rfl
  | some xv =>
    cases yc with
    | none => rfl
    | some yv =>
      simp only [gamFull]
      obtain ⟨hst, hfl⟩ := amLoop_shiftmax_indep img bkgd xv yv s1 s2 t1 t2
        mi aexp (mi + 2) amInit {} {} rfl
      have h2 := gamPost_shiftmax_indep img bkgd xv yv mi aexp
        (amLoop img bkgd xv yv s1 mi t1 t2 aexp (mi + 2) amInit {}).1
        (amLoop img bkgd xv yv s1 mi t1 t2 aexp (mi + 2) amInit {}).2
        (amLoop img bkgd xv yv s2 mi t1 t2 aexp (mi + 2) amInit {}).2 hfl
      have e2 : ((amLoop img bkgd xv yv s1 mi t1 t2 aexp (mi + 2)
            amInit {}).1,
          (amLoop img bkgd xv yv s2 mi t1 t2 aexp (mi + 2) amInit {}).2) =
          amLoop img bkgd xv yv s2 mi t1 t2 aexp (mi + 2) amInit {} := by
        rw [hst]
      rw [e2] at h2
      exact h2

/-- C7: the shift test is non-fatal and purely diagnostic — (a) the entire
outcome of `getAdaptiveMoments` (moments, centroid, amplitude, return value,
all other flags, final state) is independent of `maxShift`: two runs that
differ only in `maxShift` agree after forgetting the `SHIFT` flag, so the
shift test never exits the loop or aborts the measurement; and (b) in any
loop iteration whose `calcmom` succeeds and whose recomputed centroid
`(sumx/sum, sumy/sum)` is farther than `maxShift` from the start, the
`SHIFT` flag is set in the loop's final flags. -/
theorem gam_shift_nonfatal :
    (∀ (img : SImg) (bkgd : ℚ) (xc yc : Option ℚ) (s1 s2 : ℚ) (mi : ℕ)
      (t1 t2 : ℚ) (aexp : ℚ → ℚ),
      (gamFull img bkgd xc yc s1 mi t1 t2 aexp).clearShift =
        (gamFull img bkgd xc yc s2 mi t1 t2 aexp).clearShift) ∧
    (∀ (img : SImg) (bkgd xc yc smax t1 t2 : ℚ) (mi : ℕ) (aexp : ℚ → ℚ)
      (fuel : ℕ) (st : AmState) (fl : Flags) (detW g1 g2 g3 : ℚ)
      (d : CMData),
      st.iter < mi →
      getWeights st.s11 st.s12 st.s22 true = some (detW, g1, g2, g3) →
      calcmom false img xc yc
        (amTransition
          { st with bbox := set_amom_bbox img.w img.h xc yc st.s11 st.s22 }
          detW g1 g2 g3).bbox bkgd
        (amTransition
          { st with bbox := set_amom_bbox img.w img.h xc yc st.s11 st.s22 }
          detW g1 g2 g3).interpflag
        (amTransition
          { st with bbox := set_amom_bbox img.w img.h xc yc st.s11 st.s22 }
          detW g1 g2 g3).w11
        (amTransition
          { st with bbox := set_amom_bbox img.w img.h xc yc st.s11 st.s22 }
          detW g1 g2 g3).w12
        (amTransition
          { st with bbox := set_amom_bbox img.w img.h xc yc st.s11 st.s22 }
          detW g1 g2 g3).w22 aexp = some d →
      d.ok = true →
      (smax < |d.sums.sx / d.sums.s - xc| ∨
        smax < |d.sums.sy / d.sums.s - yc|) →
      (amLoop img bkgd xc yc smax mi t1 t2 aexp (fuel + 1) st fl).2.shift
        = true) := by
  constructor
  · exact gamFull_shiftmax_indep
  · intro img bkgd xc yc smax t1 t2 mi aexp fuel st fl detW g1 g2 g3 d
      hiter hgw hcm hok hsh
    simp only [amLoop]
    rw [if_neg (not_le.mpr hiter)]
    have hpass : (amPass img bkgd xc yc smax t1 t2 aexp st fl).flagsOf.shift
        = true := by
      simp only [amPass, hgw]
      simp only [hcm]
      rw [hok]
      simp only [Bool.not_true, Bool.false_eq_true, if_false]
      rw [if_pos hsh]
      repeat' split
      all_goals simp [PassOut.flagsOf]
    cases hp : amPass img bkgd xc yc smax t1 t2 aexp st fl with
    | stop st1 fl1 =>
      rw [hp] at hpass
      exact hpass
    | next st1 fl1 =>
      rw [hp] at hpass
      exact amLoop_shift_mono img bkgd xc yc smax t1 t2 mi aexp fuel
        { st1 with iter := st1.iter + 1 } fl1 hpass

/-- Witness for `gam_shift_nonfatal`: on `imgTwoPix` the first iteration's
centroid lands at `(8, 6)`, `3 > maxShift = 2` away from the start `(5, 5)`,
so the loop flags carry `SHIFT`; and the whole trace is unchanged (modulo
`SHIFT`) when `maxShift` is raised to `100`. -/
theorem gam_shift_nonfatal_witness :
    (amLoop imgTwoPix 0 5 5 2 2 (1/100000) (1/10000) aexpOne 3 amInit
      {}).2.shift = true ∧
    (gamFull imgTwoPix 0 (some 5) (some 5) 2 2 (1/100000) (1/10000)
        aexpOne).clearShift =
      (gamFull imgTwoPix 0 (some 5) (some 5) 100 2 (1/100000) (1/10000)
        aexpOne).clearShift := by
  constructor
  · exact gam_shift_nonfatal.2 imgTwoPix 0 5 5 2 (1/100000) (1/10000) 2
      aexpOne 2 amInit {} (9/4) (2/3) 0 (2/3)
      ⟨true, some (5, 9/4), ⟨5, 40, 30, 5, 15, 5, 80/9⟩⟩
      (by decide) (by with_unfolding_all decide)
      (by with_unfolding_all decide) rfl
      (by with_unfolding_all decide)
  · exact gam_shift_nonfatal.1 imgTwoPix 0 (some 5) (some 5) 2 100 2
      (1/100000) (1/10000) aexpOne

theorem foldl_invariant {α β : Type} (P : β → Prop) (f : β → α → β) :
    ∀ (l : List α) (b : β), P b → (∀ x a, P x → P (f x a)) →
      P (l.foldl f b)
  | [], b, hb, _ => hb
  | a :: l, b, hb, hstep =>
    foldl_invariant P f l (f b a) (hstep b a hb) hstep

theorem psd_rank1_add (sxx syy sxy x y f : ℚ) (hxx : 0 ≤ sxx)
    (hyy : 0 ≤ syy) (hps : sxy ^ 2 ≤ sxx * syy) (hf : 0 ≤ f) :
    (sxy + x * y * f) ^ 2 ≤ (sxx + x ^ 2 * f) * (syy + y ^ 2 * f) := by
  rcases eq_or_lt_of_le hxx with heq | hpos
  · have hz : sxy = 0 := by
      have : sxy ^ 2 ≤ 0 := by nlinarith
      nlinarith [sq_nonneg sxy]
    subst hz
    rw [← heq]
    nlinarith [mul_nonneg (mul_nonneg (sq_nonneg x) hf) hyy,
      mul_nonneg (mul_nonneg (mul_nonneg (sq_nonneg x) hf) (sq_nonneg y))
        hf]
  · have hQ : 0 ≤ sxx * y ^ 2 - 2 * sxy * x * y + syy * x ^ 2 := by
      nlinarith [sq_nonneg (sxx * y - sxy * x), sq_nonneg x,
        mul_nonneg (sub_nonneg.2 hps) (sq_nonneg x)]
    nlinarith [mul_nonneg hf hQ]

theorem calcmomSub_psd (fo : Bool) (aexp : ℚ → ℚ) (xc yc : ℚ)
    (w11 w12 w22 tmod : ℚ) (st : Sums) (pos : ℚ × ℚ)
    (haexp : ∀ q, 0 ≤ aexp q) (htm : 0 ≤ tmod) (h : SumsPSD st) :
    SumsPSD (calcmomSub fo aexp xc yc w11 w12 w22 tmod st pos) := by
  obtain ⟨hxx, hyy, hps⟩ := h
  unfold calcmomSub
  split
  · exact ⟨hxx, hyy, hps⟩
  · have hf : 0 ≤ tmod * aexp (-(1/2) *
        (pos.1 ^ 2 * w11 + 2 * (pos.1 * pos.2) * w12 +
          pos.2 ^ 2 * w22)) := mul_nonneg htm (haexp _)
    refine ⟨?_, ?_, ?_⟩
    · exact add_nonneg hxx (by positivity)
    · exact add_nonneg hyy (by positivity)
    · have := psd_rank1_add st.sxx st.syy st.sxy pos.1 pos.2
        (tmod * aexp (-(1/2) * (pos.1 ^ 2 * w11 + 2 * (pos.1 * pos.2) *
          w12 + pos.2 ^ 2 * w22))) hxx hyy hps hf
      calc (st.sxy + pos.1 * pos.2 * (tmod * aexp (-(1/2) *
            (pos.1 ^ 2 * w11 + 2 * (pos.1 * pos.2) * w12 +
              pos.2 ^ 2 * w22)))) ^ 2
          ≤ _ := this
        _ = _ := by ring

theorem calcmomPixel_psd (fo : Bool) (img : SImg) (aexp : ℚ → ℚ)
    (xc yc bkgd : ℚ) (itp : Bool) (w11 w12 w22 : ℚ) (i j : ℤ) (st : Sums)
    (haexp : ∀ q, 0 ≤ aexp q) (hpix : ∀ a b : ℤ, bkgd ≤ img.pix a b)
    (h : SumsPSD st) :
    SumsPSD (calcmomPixel fo img aexp xc yc bkgd itp w11 w12 w22 i j st) := by
  obtain ⟨hxx, hyy, hps⟩ := h
  simp only [calcmomPixel]
  split
  · split
    · refine foldl_invariant SumsPSD _ _ st ⟨hxx, hyy, hps⟩ ?_
      intro x a hP
      exact calcmomSub_psd fo aexp xc yc w11 w12 w22 _ x a haexp
        (sub_nonneg.2 (hpix j i)) hP
    · exact ⟨hxx, hyy, hps⟩
  · split
    · have hf : 0 ≤ (img.pix j i - bkgd) * aexp (-(1/2) *
          (((j : ℚ) - xc) * ((j : ℚ) - xc) * w11 +
            2 * (((j : ℚ) - xc) * ((i : ℚ) - yc)) * w12 +
            ((i : ℚ) - yc) * ((i : ℚ) - yc) * w22)) :=
        mul_nonneg (sub_nonneg.2 (hpix j i)) (haexp _)
      split
      · exact ⟨hxx, hyy, hps⟩
      · refine ⟨add_nonneg hxx (by nlinarith [sq_nonneg ((j : ℚ) - xc)]),
          add_nonneg hyy (by nlinarith [sq_nonneg ((i : ℚ) - yc)]), ?_⟩
        have := psd_rank1_add st.sxx st.syy st.sxy ((j : ℚ) - xc)
          ((i : ℚ) - yc)
          ((img.pix j i - bkgd) * aexp (-(1/2) *
            (((j : ℚ) - xc) * ((j : ℚ) - xc) * w11 +
              2 * (((j : ℚ) - xc) * ((i : ℚ) - yc)) * w12 +
              ((i : ℚ) - yc) * ((i : ℚ) - yc) * w22)))
          hxx hyy hps hf
        calc _ ≤ _ := this
          _ = _ := by ring
    · exact ⟨hxx, hyy, hps⟩

theorem calcmomSums_psd (fo : Bool) (img : SImg) (aexp : ℚ → ℚ)
    (xc yc bkgd : ℚ) (bbox : Box2I) (itp : Bool) (w11 w12 w22 : ℚ)
    (haexp : ∀ q, 0 ≤ aexp q) (hpix : ∀ a b : ℤ, bkgd ≤ img.pix a b) :
    SumsPSD (calcmomSums fo img aexp xc yc bkgd bbox itp w11 w12 w22) := by
  unfold calcmomSums
  refine foldl_invariant SumsPSD _ _ _ ⟨le_refl 0, le_refl 0, by norm_num⟩ ?_
  intro x a hP
  refine foldl_invariant SumsPSD _ _ _ hP ?_
  intro x' a' hP'
  exact calcmomPixel_psd fo img aexp xc yc bkgd itp w11 w12 w22 a a' x'
    haexp hpix hP'

theorem calcmom_elim (fo : Bool) (img : SImg) (xc yc : ℚ) (bb : Box2I)
    (bkgd : ℚ) (itp : Bool) (w1 w2 w3 : ℚ) (aexp : ℚ → ℚ) (d : CMData)
    (h : calcmom fo img xc yc bb bkgd itp w1 w2 w3 aexp = some d) :
    d.sums = calcmomSums fo img aexp xc yc bkgd bb itp w1 w2 w3 := by
  unfold calcmom at h
  split at h
  · exact absurd h (by simp)
  · split at h
    · exact absurd h (by simp)
    · rw [Option.some.injEq] at h
      rw [← h]

theorem getWeights_some_det_pos (a b c : ℚ) (k : Bool)
    (det w1 w2 w3 : ℚ) (h : getWeights a b c k = some (det, w1, w2, w3)) :
    0 < w1 * w3 - w2 * w2 := by
  simp only [getWeights] at h
  by_cases h1 : a * c - b * b < epsF
  · rw [if_pos h1] at h
    exact absurd h (by simp)
  · rw [if_neg h1, if_neg h1] at h
    have hD : 0 < a * c - b * b :=
      lt_of_lt_of_le (by norm_num [epsF]) (not_lt.1 h1)
    rw [Option.some.injEq, Prod.mk.injEq, Prod.mk.injEq,
      Prod.mk.injEq] at h
    obtain ⟨-, hw1, hw2, hw3⟩ := h
    rw [← hw1, ← hw2, ← hw3]
    have he : c / (a * c - b * b) * (a / (a * c - b * b)) -
        -b / (a * c - b * b) * (-b / (a * c - b * b)) =
        (a * c - b * b) / (a * c - b * b) ^ 2 := by
      field_simp
      ring
    rw [he]
    positivity

theorem amTransition_s11 (st : AmState) (detW g1 g2 g3 : ℚ) :
    (amTransition st detW g1 g2 g3).s11 = st.s11 := by
  unfold amTransition
  repeat' split
  all_goals rfl

theorem amTransition_s12 (st : AmState) (detW g1 g2 g3 : ℚ) :
    (amTransition st detW g1 g2 g3).s12 = st.s12 := by
  unfold amTransition
  repeat' split
  all_goals rfl

theorem amTransition_s22 (st : AmState) (detW g1 g2 g3 : ℚ) :
    (amTransition st detW g1 g2 g3).s22 = st.s22 := by
  unfold amTransition
  repeat' split
  all_goals rfl

theorem amNextW_det_pos (a b c w1 w2 w3 x y z : ℚ)
    (h : amNextW a b c w1 w2 w3 = some (x, y, z)) :
    0 < x * z - y * y := by
  unfold amNextW at h
  cases hgw1 : getWeights a b c true with
  | none => simp only [hgw1] at h; exact Option.noConfusion h
  | some o =>
    obtain ⟨odet, o11, o12, o22⟩ := o
    simp only [hgw1] at h
    cases hgw2 : getWeights (o11 - w1) (o12 - w2) (o22 - w3) false with
    | none => simp only [hgw2] at h; exact Option.noConfusion h
    | some ns =>
      obtain ⟨nd, n1, n2, n3⟩ := ns
      simp only [hgw2] at h
      rw [Option.some.injEq, Prod.mk.injEq, Prod.mk.injEq] at h
      obtain ⟨e1, e2, e3⟩ := h
      rw [← e1, ← e2, ← e3]
      exact getWeights_some_det_pos _ _ _ _ _ _ _ _ hgw2

theorem amPass_state_s (img : SImg) (bkgd xc yc smax t1 t2 : ℚ)
    (aexp : ℚ → ℚ) (st : AmState) (fl : Flags) (po : PassOut)
    (hpo : amPass img bkgd xc yc smax t1 t2 aexp st fl = po) :
    (po.stateOf.s11 = st.s11 ∧ po.stateOf.s12 = st.s12 ∧
      po.stateOf.s22 = st.s22) ∨
    (∃ a b c w1 w2 w3, amNextW a b c w1 w2 w3 =
      some (po.stateOf.s11, po.stateOf.s12, po.stateOf.s22)) := by
  simp only [amPass] at hpo
  cases hgw : getWeights st.s11 st.s12 st.s22 true with
  | none =>
    simp only [hgw] at hpo
    subst hpo
    exact Or.inl ⟨rfl, rfl, rfl⟩
  | some w =>
    obtain ⟨detW, g1, g2, g3⟩ := w
    simp only [hgw] at hpo
    cases hcm : calcmom false img xc yc
        (amTransition
          { st with bbox := set_amom_bbox img.w img.h xc yc st.s11 st.s22 }
          detW g1 g2 g3).bbox bkgd
        (amTransition
          { st with bbox := set_amom_bbox img.w img.h xc yc st.s11 st.s22 }
          detW g1 g2 g3).interpflag
        (amTransition
          { st with bbox := set_amom_bbox img.w img.h xc yc st.s11 st.s22 }
          detW g1 g2 g3).w11
        (amTransition
          { st with bbox := set_amom_bbox img.w img.h xc yc st.s11 st.s22 }
          detW g1 g2 g3).w12
        (amTransition
          { st with bbox := set_amom_bbox img.w img.h xc yc st.s11 st.s22 }
          detW g1 g2 g3).w22 aexp with
    | none =>
      simp only [hcm] at hpo
      subst hpo
      refine Or.inl ⟨?_, ?_, ?_⟩ <;>
        simp [PassOut.stateOf, amTransition_s11, amTransition_s12,
          amTransition_s22]
    | some d =>
      simp only [hcm] at hpo
      cases hnw : amNextW (d.sums.sxx / d.sums.s) (d.sums.sxy / d.sums.s)
          (d.sums.syy / d.sums.s)
          (amTransition
            { st with
              bbox := set_amom_bbox img.w img.h xc yc st.s11 st.s22 }
            detW g1 g2 g3).w11
          (amTransition
            { st with
              bbox := set_amom_bbox img.w img.h xc yc st.s11 st.s22 }
            detW g1 g2 g3).w12
          (amTransition
            { st with
              bbox := set_amom_bbox img.w img.h xc yc st.s11 st.s22 }
            detW g1 g2 g3).w22 with
      | none =>
        simp only [hnw] at hpo
        repeat' split at hpo
        all_goals subst hpo
        all_goals refine Or.inl ⟨?_, ?_, ?_⟩ <;>
          simp [PassOut.stateOf, amTransition_s11, amTransition_s12,
            amTransition_s22]
      | some ns =>
        obtain ⟨n1, n2, n3⟩ := ns
        simp only [hnw] at hpo
        repeat' split at hpo
        all_goals subst hpo
        all_goals first
          | (refine Or.inl ⟨?_, ?_, ?_⟩ <;>
              (simp [PassOut.stateOf, amTransition_s11, amTransition_s12,
                amTransition_s22]
               done))
          | exact Or.inr ⟨_, _, _, _, _, _, by
              simp only [PassOut.stateOf]
              exact hnw⟩

theorem amPass_detQ_pos (img : SImg) (bkgd xc yc smax t1 t2 : ℚ)
    (aexp : ℚ → ℚ) (st : AmState) (fl : Flags)
    (h : 0 < st.detQ) :
    0 < ((amPass img bkgd xc yc smax t1 t2 aexp st fl).stateOf).detQ := by
  rcases amPass_state_s img bkgd xc yc smax t1 t2 aexp st fl _ rfl with
    ⟨h1, h2, h3⟩ | ⟨a, b, c, w1, w2, w3, hnw⟩
  · unfold AmState.detQ
    rw [h1, h2, h3]
    exact h
  · exact amNextW_det_pos a b c w1 w2 w3 _ _ _ hnw

theorem amLoop_detQ_pos (img : SImg) (bkgd xc yc smax t1 t2 : ℚ)
    (mi : ℕ) (aexp : ℚ → ℚ) :
    ∀ (fuel : ℕ) (st : AmState) (fl : Flags), 0 < st.detQ →
      0 < (amLoop img bkgd xc yc smax mi t1 t2 aexp fuel st fl).1.detQ
  | 0, _, _, h => h
  | fuel + 1, st, fl, h => by
    simp only [amLoop]
    split
    · exact h
    · have hp := amPass_detQ_pos img bkgd xc yc smax t1 t2 aexp st fl h
      cases hpass : amPass img bkgd xc yc smax t1 t2 aexp st fl with
      | stop st1 g1 =>
        rw [hpass] at hp
        exact hp
      | next st1 g1 =>
        rw [hpass] at hp
        exact amLoop_detQ_pos img bkgd xc yc smax t1 t2 mi aexp fuel
          { st1 with iter := st1.iter + 1 } g1 hp

theorem epsF_pos : 0 < epsF := by norm_num [epsF]

theorem div_psd_bound (sxx syy sxy s : ℚ) (hpsd : sxy ^ 2 ≤ sxx * syy) :
    (sxy / s) ^ 2 - epsF ≤ sxx / s * (syy / s) := by
  have h1 : (sxy / s) ^ 2 ≤ sxx / s * (syy / s) := by
    rcases eq_or_ne s 0 with hz | hz
    · subst hz
      simp [div_zero]
    · rw [div_pow, div_mul_div_comm, ← pow_two s]
      exact (div_le_div_right (sq_pos_of_ne_zero hz)).2 hpsd
  linarith [epsF_pos]

theorem gamFallback_psd (img : SImg) (bkgd xc yc : ℚ) (aexp : ℚ → ℚ)
    (st : AmState) (fl2 : Flags) (haexp : ∀ q, 0 ≤ aexp q)
    (hpix : ∀ a b : ℤ, bkgd ≤ img.pix a b) :
    ∀ a b c,
      (gamFallback img bkgd xc yc aexp st fl2).shape.ixx = some a →
      (gamFallback img bkgd xc yc aexp st fl2).shape.iyy = some b →
      (gamFallback img bkgd xc yc aexp st fl2).shape.ixy = some c →
      c ^ 2 - epsF ≤ a * b := by
  intro a b c hxx hyy hxy
  simp only [gamFallback] at hxx hyy hxy
  cases hcm : calcmom false img xc yc st.bbox bkgd st.interpflag 0 0 0
      aexp with
  | none =>
    simp only [hcm, gamMerge] at hxx hyy hxy
    have hcT : (!false) = true ∨ st.sums.s ≤ 0 := Or.inl rfl
    rw [if_pos hcT] at hxx hyy hxy
    split at hxx
    next hs =>
      rw [if_pos hs] at hyy hxy
      simp only [Option.some.injEq] at hxx hyy hxy
      rw [← hxx, ← hyy, ← hxy]
      norm_num [epsF]
    next hs =>
      simp [hs] at hxx
  | some d =>
    have hpsd : SumsPSD d.sums := by
      rw [calcmom_elim false img xc yc st.bbox bkgd st.interpflag 0 0 0
        aexp d hcm]
      exact calcmomSums_psd false img aexp xc yc bkgd st.bbox
        st.interpflag 0 0 0 haexp hpix
    simp only [hcm, gamMerge] at hxx hyy hxy
    split at hxx
    next hb =>
      rw [if_pos hb] at hyy hxy
      split at hxx
      next hs =>
        rw [if_pos hs] at hyy hxy
        simp only [Option.some.injEq] at hxx hyy hxy
        rw [← hxx, ← hyy, ← hxy]
        norm_num [epsF]
      next hs =>
        simp [hs] at hxx
    next hb =>
      rw [if_neg hb] at hyy hxy
      rw [(gamTail_fields img xc yc fl2 st _ _ _ _ _ true true).1,
        Option.some.injEq] at hxx
      rw [(gamTail_fields img xc yc fl2 st _ _ _ _ _ true true).2.2.1,
        Option.some.injEq] at hyy
      rw [(gamTail_fields img xc yc fl2 st _ _ _ _ _ true true).2.1,
        Option.some.injEq] at hxy
      rw [← hxx, ← hyy, ← hxy]
      exact div_psd_bound d.sums.sxx d.sums.syy d.sums.sxy _ hpsd.2.2

/-- C2 (amended): on an image all of whose background-subtracted pixels are
nonnegative (and for any nonnegative exponential model), every moment triple
that `getAdaptiveMoments` stores satisfies `Ixx·Iyy ≥ Ixy² − ε` with
`ε = float epsilon` — including the runs that end with `UNWEIGHTED` or
`UNWEIGHTED_BAD` set.  (The counterexample shows the nonnegativity
hypothesis is necessary: a negative pixel makes the unweighted fallback
store an indefinite triple.) -/
theorem gam_moments_psd (img : SImg) (bkgd : ℚ) (xc yc : Option ℚ)
    (smax : ℚ) (mi : ℕ) (t1 t2 : ℚ) (aexp : ℚ → ℚ)
    (haexp : ∀ q, 0 ≤ aexp q) (hpix : ∀ a b : ℤ, bkgd ≤ img.pix a b) :
    ∀ a b c,
      (gamFull img bkgd xc yc smax mi t1 t2 aexp).shape.ixx = some a →
      (gamFull img bkgd xc yc smax mi t1 t2 aexp).shape.iyy = some b →
      (gamFull img bkgd xc yc smax mi t1 t2 aexp).shape.ixy = some c →
      c ^ 2 - epsF ≤ a * b := by
  intro a b c hxx hyy hxy
  cases xc with
  | none => simp [gamFull] at hxx
  | some xv =>
    cases yc with
    | none => simp [gamFull] at hxx
    | some yv =>
      simp only [gamFull] at hxx hyy hxy
      have hdet : 0 < (amLoop img bkgd xv yv smax mi t1 t2 aexp (mi + 2)
          amInit {}).1.detQ :=
        amLoop_detQ_pos img bkgd xv yv smax t1 t2 mi aexp (mi + 2) amInit
          {} (by norm_num [amInit, AmState.detQ])
      generalize hp : amLoop img bkgd xv yv smax mi t1 t2 aexp (mi + 2)
        amInit {} = p at hxx hyy hxy hdet
      simp only [gamPost] at hxx hyy hxy
      by_cases hU : (gamFlagsPost mi p.1 p.2).unweighted = true
      · rw [if_pos hU] at hxx hyy hxy
        exact gamFallback_psd img bkgd xv yv aexp p.1 _ haexp hpix a b c
          hxx hyy hxy
      · rw [if_neg hU] at hxx hyy hxy
        rw [(gamTail_fields img xv yv _ _ _ _ _ _ _ false false).1,
          Option.some.injEq] at hxx
        rw [(gamTail_fields img xv yv _ _ _ _ _ _ _ false false).2.2.1,
          Option.some.injEq] at hyy
        rw [(gamTail_fields img xv yv _ _ _ _ _ _ _ false false).2.1,
          Option.some.injEq] at hxy
        rw [← hxx, ← hyy, ← hxy]
        unfold AmState.detQ at hdet
        nlinarith [hdet, epsF_pos]

/-- Witness for `gam_moments_psd`: the single-pixel image `imgOnePix`
degenerates to the `UNWEIGHTED_BAD` fallback, which stores
`(Ixx, Ixy, Iyy) = (1/12, 0, 1/12)`, and `0² - ε ≤ 1/144`. -/
theorem gam_moments_psd_witness :
    (gamFull imgOnePix 0 (some 5) (some 5) 2 2 (1/100000) (1/10000)
        aexpOne).shape.ixx = some (1/12) ∧
    (gamFull imgOnePix 0 (some 5) (some 5) 2 2 (1/100000) (1/10000)
        aexpOne).shape.flags.unweightedBad = true ∧
    ((0 : ℚ) ^ 2 - epsF ≤ 1/12 * (1/12)) := by
  have hxx : (gamFull imgOnePix 0 (some 5) (some 5) 2 2 (1/100000)
      (1/10000) aexpOne).shape.ixx = some (1/12) := by
    with_unfolding_all decide
  have hyy : (gamFull imgOnePix 0 (some 5) (some 5) 2 2 (1/100000)
      (1/10000) aexpOne).shape.iyy = some (1/12) := by
    with_unfolding_all decide
  have hxy : (gamFull imgOnePix 0 (some 5) (some 5) 2 2 (1/100000)
      (1/10000) aexpOne).shape.ixy = some 0 := by
    with_unfolding_all decide
  refine ⟨hxx, by with_unfolding_all decide, ?_⟩
  exact gam_moments_psd imgOnePix 0 (some 5) (some 5) 2 2 (1/100000)
    (1/10000) aexpOne (fun q => by norm_num [aexpOne])
    (fun a b => by
      simp only [imgOnePix]
      split <;> norm_num)
    (1/12) (1/12) 0 hxx hyy hxy

end MeasBase
